import Mathlib

/-!
Shallow embedding of the ipfs-cluster core (tracker, state, consensus
commit loop, allocator, peer manager) and verification of its
natural-language specification.

CIDs and peer IDs are opaque, equality-comparable, string-serialisable
identifiers; we model both as `String`.  Go maps keyed by `c.String()`
become association lists keyed by the CID string.  Time is an explicit
`Nat` parameter (milliseconds); RPC calls to the IPFS daemon or to other
peers become explicit oracle arguments (`Option String` for an error,
`Except String α` for a fallible result).
-/

namespace IpfsCluster

/-- Content identifier: opaque, equality-comparable, string-serialisable. -/
abbrev Cid := String

/-- Peer identifier: opaque identifier of a cluster member. -/
abbrev PeerID := String

/-- `api.TrackerStatus` — the status values a tracker entry may take
(src/tracker/map_pin.go uses the constants of the api package). -/
inductive TrackerStatus where
  | pinned
  | pinning
  | unpinning
  | unpinned
  | pinError
  | unpinError
  | remote
deriving DecidableEq, Repr

/-- `api.PinInfo` — the tracker entry stored for each CID:
cid, local peer, status, timestamp of last transition, error string. -/
structure PinInfo where
  cid    : Cid
  peer   : PeerID
  status : TrackerStatus
  ts     : Nat
  error  : String
deriving DecidableEq, Repr

/-- Modelled from the spec: the daemon-reported pin status
(`api.IPFSPinStatus`, not under src/); the spec gives the daemon state
as one of Pinned, Unpinned, Pinning (daemon-internal) or Error. -/
inductive IPFSPinStatus where
  | error
  | unpinned
  | pinning
  | pinned
deriving DecidableEq, Repr

/-- Modelled from the spec: `IPFSPinStatus.IsPinned` — true exactly when
the daemon reports the content as pinned. -/
def IPFSPinStatus.IsPinned : IPFSPinStatus → Bool
  | .pinned => true
  | _ => false

/-- `api.CidArg` — a pin request: cid, allocated peers, everywhere flag
(fields as used by src/tracker/map_pin.go and src/state/mapstate.go). -/
structure CidArg where
  cid         : Cid
  allocations : List PeerID
  everywhere  : Bool
deriving DecidableEq, Repr

/-- `api.CidArgSerial` — serialisable form of `CidArg`; with CIDs and
peer IDs already modelled as strings the fields coincide. -/
structure CidArgSerial where
  cid         : Cid
  allocations : List PeerID
  everywhere  : Bool
deriving DecidableEq, Repr

/-- `CidArg.ToSerial`. -/
def CidArg.ToSerial (c : CidArg) : CidArgSerial :=
  ⟨c.cid, c.allocations, c.everywhere⟩

/-- `CidArgSerial.ToCidArg`. -/
def CidArgSerial.ToCidArg (c : CidArgSerial) : CidArg :=
  ⟨c.cid, c.allocations, c.everywhere⟩

/-- `api.CidArgCid` — wraps a bare CID as a `CidArg` (empty allocations,
not everywhere), as used by `Untrack` and `Recover`. -/
def CidArgCid (c : Cid) : CidArg := ⟨c, [], false⟩

/-! ### Association-list primitives for the Go maps -/

/-- Lookup in an association list (a Go map read). -/
def alookup {α : Type} (k : String) : List (String × α) → Option α
  | [] => none
  | (k', v) :: rest => if k' = k then some v else alookup k rest

/-- Go map assignment `m[k] = v`: replace in place when the key is
present, append otherwise. -/
def aset {α : Type} (k : String) (v : α) : List (String × α) → List (String × α)
  | [] => [(k, v)]
  | (k', v') :: rest =>
      if k' = k then (k', v) :: rest else (k', v') :: aset k v rest

/-- Go map deletion `delete(m, k)`. -/
def aerase {α : Type} (k : String) : List (String × α) → List (String × α)
  | [] => []
  | (k', v') :: rest =>
      if k' = k then rest else (k', v') :: aerase k rest

/-! ### Local pin tracker (src/tracker/map_pin.go) -/

/-- `PinQueueSize` — capacity of the pin and unpin work queues. -/
def PinQueueSize : Nat := 1024

/-- `PinningTimeout = 15 * time.Minute`, in milliseconds. -/
def PinningTimeout : Nat := 15 * 60 * 1000

/-- `UnpinningTimeout = 10 * time.Second`, in milliseconds. -/
def UnpinningTimeout : Nat := 10 * 1000

/-- `errPinned.Error()`. -/
def errPinned : String := "the item is unexpectedly pinned on IPFS"

/-- `errUnpinned.Error()`. -/
def errUnpinned : String := "the item is unexpectedly not pinned on IPFS"

/-- `errPinningTimeout.Error()`. -/
def errPinningTimeout : String := "pinning operation is taking too long"

/-- `errUnpinningTimeout.Error()`. -/
def errUnpinningTimeout : String := "unpinning operation is taking too long"

/-- `ErrPinQueueFull.Error()`. -/
def ErrPinQueueFull : String := "pin queue is full"

/-- `ErrUnpinQueueFull.Error()`. -/
def ErrUnpinQueueFull : String := "unpin queue is full"

/-- `mapPinTracker` — the status map (Go map keyed by `c.String()`),
the two bounded work queues (buffered channels) and the local peer ID. -/
structure MapPinTracker where
  status  : List (String × PinInfo)
  pinCh   : List CidArg
  unpinCh : List CidArg
  peerID  : PeerID
deriving DecidableEq, Repr

namespace MapPinTracker

/-- `unsafeSet`: setting `Unpinned` deletes the entry, any other status
stores a fresh entry with the current time and an empty error. -/
def unsafeSet (mpt : MapPinTracker) (c : Cid) (s : TrackerStatus) (now : Nat) :
    MapPinTracker :=
  if s = TrackerStatus.unpinned then
    { mpt with status := aerase c mpt.status }
  else
    { mpt with status := aset c ⟨c, mpt.peerID, s, now, ""⟩ mpt.status }

/-- `set` (the lock around `unsafeSet` disappears in the sequential model). -/
def set (mpt : MapPinTracker) (c : Cid) (s : TrackerStatus) (now : Nat) :
    MapPinTracker :=
  mpt.unsafeSet c s now

/-- `unsafeGet`: a missing entry reads as `Unpinned` on the local peer
with an empty error. -/
def unsafeGet (mpt : MapPinTracker) (c : Cid) (now : Nat) : PinInfo :=
  match alookup c mpt.status with
  | none => ⟨c, mpt.peerID, TrackerStatus.unpinned, now, ""⟩
  | some p => p

/-- `get`. -/
def get (mpt : MapPinTracker) (c : Cid) (now : Nat) : PinInfo :=
  mpt.unsafeGet c now

/-- `unsafeSetError`: pin-side statuses (Pinned, Pinning, PinError)
become `PinError`, unpin-side statuses (Unpinned, Unpinning, UnpinError)
become `UnpinError`; `Remote` matches no case and nothing is written. -/
def unsafeSetError (mpt : MapPinTracker) (c : Cid) (err : String) (now : Nat) :
    MapPinTracker :=
  let p := mpt.unsafeGet c now
  match p.status with
  | .pinned | .pinning | .pinError =>
      { mpt with status := aset c ⟨c, mpt.peerID, TrackerStatus.pinError, now, err⟩ mpt.status }
  | .unpinned | .unpinning | .unpinError =>
      { mpt with status := aset c ⟨c, mpt.peerID, TrackerStatus.unpinError, now, err⟩ mpt.status }
  | .remote => mpt

/-- `setError`. -/
def setError (mpt : MapPinTracker) (c : Cid) (err : String) (now : Nat) :
    MapPinTracker :=
  mpt.unsafeSetError c err now

/-- `isRemote`: a CidArg is remote when it is not an everywhere pin and
the local peer is not among its allocations. -/
def isRemote (mpt : MapPinTracker) (c : CidArg) : Bool :=
  if c.everywhere then false
  else !(c.allocations.contains mpt.peerID)

/-- `pin`: mark Pinning, call the daemon (`ipfsPinErr` is the oracle for
the `IPFSPin` RPC result), then mark Pinned on success or set the error. -/
def pin (mpt : MapPinTracker) (c : CidArg) (now : Nat) (ipfsPinErr : Option String) :
    MapPinTracker × Option String :=
  let mpt := mpt.set c.cid TrackerStatus.pinning now
  match ipfsPinErr with
  | some e => (mpt.setError c.cid e now, some e)
  | none => (mpt.set c.cid TrackerStatus.pinned now, none)

/-- `unpin`: call the daemon (`ipfsUnpinErr` is the oracle for the
`IPFSUnpin` RPC result), then mark Unpinned on success or set the error. -/
def unpin (mpt : MapPinTracker) (c : CidArg) (now : Nat) (ipfsUnpinErr : Option String) :
    MapPinTracker × Option String :=
  match ipfsUnpinErr with
  | some e => (mpt.setError c.cid e now, some e)
  | none => (mpt.set c.cid TrackerStatus.unpinned now, none)

/-- `Track`: a remote CidArg is unpinned if currently Pinned and marked
Remote; a local one is marked Pinning and enqueued, or set to the
queue-full error when the pin channel is at capacity. -/
def Track (mpt : MapPinTracker) (c : CidArg) (now : Nat)
    (ipfsUnpinErr : Option String) : MapPinTracker × Option String :=
  if mpt.isRemote c then
    let mpt :=
      if (mpt.get c.cid now).status = TrackerStatus.pinned then
        (mpt.unpin c now ipfsUnpinErr).1
      else mpt
    (mpt.set c.cid TrackerStatus.remote now, none)
  else
    let mpt := mpt.set c.cid TrackerStatus.pinning now
    if mpt.pinCh.length < PinQueueSize then
      ({ mpt with pinCh := mpt.pinCh ++ [c] }, none)
    else
      (mpt.setError c.cid ErrPinQueueFull now, some ErrPinQueueFull)

/-- `Untrack`: mark Unpinning and enqueue the unpin, or set the
queue-full error when the unpin channel is at capacity. -/
def Untrack (mpt : MapPinTracker) (c : Cid) (now : Nat) :
    MapPinTracker × Option String :=
  let mpt := mpt.set c TrackerStatus.unpinning now
  if mpt.unpinCh.length < PinQueueSize then
    ({ mpt with unpinCh := mpt.unpinCh ++ [CidArgCid c] }, none)
  else
    (mpt.setError c ErrUnpinQueueFull now, some ErrUnpinQueueFull)

/-- `Status`. -/
def Status (mpt : MapPinTracker) (c : Cid) (now : Nat) : PinInfo :=
  mpt.get c now

/-- `StatusAll`: snapshot of all stored entries. -/
def StatusAll (mpt : MapPinTracker) : List PinInfo :=
  mpt.status.map Prod.snd

/-- `syncStatus`: the reconciliation table, keyed by (tracker status,
daemon status); returns the updated tracker and the entry read back. -/
def syncStatus (mpt : MapPinTracker) (c : Cid) (ips : IPFSPinStatus) (now : Nat) :
    MapPinTracker × PinInfo :=
  let p := mpt.get c now
  let mpt :=
    if ips.IsPinned then
      match p.status with
      | .pinned => mpt
      | .pinning | .pinError => mpt.set c TrackerStatus.pinned now
      | .unpinning =>
          if UnpinningTimeout < now - p.ts then mpt.setError c errUnpinningTimeout now
          else mpt
      | .unpinned => mpt.setError c errPinned now
      | .unpinError => mpt
      | .remote => mpt
    else
      match p.status with
      | .pinned => mpt.setError c errUnpinned now
      | .pinError => mpt
      | .pinning =>
          if PinningTimeout < now - p.ts then mpt.setError c errPinningTimeout now
          else mpt
      | .unpinning | .unpinError => mpt.set c TrackerStatus.unpinned now
      | .unpinned => mpt
      | .remote => mpt
  (mpt, mpt.get c now)

/-- `Sync`: ask the daemon for the CID's status (`lsRes` is the oracle
for the `IPFSPinLsCid` RPC) and reconcile; an RPC failure sets the error
on the entry and returns it together with the error. -/
def Sync (mpt : MapPinTracker) (c : Cid) (now : Nat)
    (lsRes : Except String IPFSPinStatus) :
    MapPinTracker × PinInfo × Option String :=
  match lsRes with
  | .error e =>
      let mpt := mpt.setError c e now
      (mpt, mpt.get c now, some e)
  | .ok ips =>
      let res := mpt.syncStatus c ips now
      (res.1, res.2, none)

/-- The failure branch of `SyncAll`: walk every key of the status map,
set the error on it and collect the entry read back. -/
def syncAllFail (mpt : MapPinTracker) (e : String) (now : Nat) :
    List String → MapPinTracker × List PinInfo
  | [] => (mpt, [])
  | k :: rest =>
      let mpt1 := mpt.unsafeSetError k e now
      let res := syncAllFail mpt1 e now rest
      (res.1, mpt1.unsafeGet k now :: res.2)

/-- The success branch of `SyncAll`: reconcile each snapshot entry
against the daemon's bulk answer (missing keys count as Unpinned) and
collect the new entry when the status changed or is an error status. -/
def syncAllLoop (mpt : MapPinTracker) (ipsMap : List (String × IPFSPinStatus))
    (now : Nat) : List PinInfo → MapPinTracker × List PinInfo
  | [] => (mpt, [])
  | pInfoOrig :: rest =>
      let ips := (alookup pInfoOrig.cid ipsMap).getD IPFSPinStatus.unpinned
      let res := mpt.syncStatus pInfoOrig.cid ips now
      let rest' := syncAllLoop res.1 ipsMap now rest
      if pInfoOrig.status ≠ res.2.status ∨
          res.2.status = TrackerStatus.unpinError ∨
          res.2.status = TrackerStatus.pinError then
        (rest'.1, res.2 :: rest'.2)
      else (rest'.1, rest'.2)

/-- `SyncAll`: on a failed bulk daemon query (`lsAllRes` is the oracle
for the `IPFSPinLs` RPC) mark every key and return all entries with the
error; on success reconcile the snapshot and return the changed or
errored entries. -/
def SyncAll (mpt : MapPinTracker) (now : Nat)
    (lsAllRes : Except String (List (String × IPFSPinStatus))) :
    MapPinTracker × List PinInfo × Option String :=
  match lsAllRes with
  | .error e =>
      let res := syncAllFail mpt e now (mpt.status.map Prod.fst)
      (res.1, res.2, some e)
  | .ok ipsMap =>
      let res := syncAllLoop mpt ipsMap now mpt.StatusAll
      (res.1, res.2, none)

/-- `Recover`: entries not in an error state are returned unchanged with
no error; `PinError` re-runs `pin` synchronously, `UnpinError` re-runs
`unpin` (`daemonErr` is the oracle for the daemon RPC). -/
def Recover (mpt : MapPinTracker) (c : Cid) (now : Nat)
    (daemonErr : Option String) : MapPinTracker × PinInfo × Option String :=
  let p := mpt.get c now
  if p.status ≠ TrackerStatus.pinError ∧ p.status ≠ TrackerStatus.unpinError then
    (mpt, p, none)
  else
    let res :=
      match p.status with
      | .pinError => mpt.pin ⟨c, [], false⟩ now daemonErr
      | .unpinError => mpt.unpin ⟨c, [], false⟩ now daemonErr
      | _ => (mpt, none)
    (res.1, res.1.get c now, res.2)

end MapPinTracker

/-! ### State component (src/state/mapstate.go) -/

/-- `mapState` — the cluster-agreed pin set, a Go map CID string →
`CidArgSerial`. -/
structure MapState where
  PinMap : List (String × CidArgSerial)
deriving DecidableEq, Repr

namespace MapState

/-- `Add`: store the serialised CidArg under its CID string (upsert). -/
def Add (st : MapState) (c : CidArg) : MapState :=
  { st with PinMap := aset c.cid c.ToSerial st.PinMap }

/-- `Rm`: delete the CID's record. -/
def Rm (st : MapState) (c : Cid) : MapState :=
  { st with PinMap := aerase c st.PinMap }

/-- `Get`: an absent CID yields the empty `CidArg`. -/
def Get (st : MapState) (c : Cid) : CidArg :=
  match alookup c st.PinMap with
  | none => ⟨"", [], false⟩
  | some cargs => cargs.ToCidArg

/-- `Has`. -/
def Has (st : MapState) (c : Cid) : Bool :=
  (alookup c st.PinMap).isSome

end MapState

/-! ### Consensus commit loop (src/cluster/peerutils.go) -/

/-- `CommitRetries` — how many times a failed commit is retried before
giving up. -/
def CommitRetries : Nat := 2

/-- Outcome of one iteration of the `logOpCid` loop, the oracle for the
two fallible calls it makes: `redirectToLeader` may fail or succeed with
redirection, and `CommitOp` (taken when we are the leader) may fail or
commit. -/
inductive AttemptOutcome where
  | redirectErr (e : String)
  | redirected
  | commitErr (e : String)
  | committed
deriving DecidableEq, Repr

/-- Observable result of `logOpCid`: the returned error, the number of
loop iterations consumed, and the total milliseconds slept in backoff. -/
structure LogOpResult where
  err     : Option String
  used    : Nat
  sleepMs : Nat
deriving DecidableEq, Repr

/-- The body of `logOpCid`'s retry loop over the remaining attempt
outcomes, threading `finalErr`: a redirect failure records the error and
retries immediately; a successful redirect returns nil at once; a commit
failure records the error, sleeps 200 ms and retries; a successful
commit clears the error and breaks. -/
def logOpLoop : List AttemptOutcome → Option String → Nat → Nat → LogOpResult
  | [], finalErr, used, slept => ⟨finalErr, used, slept⟩
  | o :: rest, finalErr, used, slept =>
      match o with
      | .redirectErr e => logOpLoop rest (some e) (used + 1) slept
      | .redirected => ⟨none, used + 1, slept⟩
      | .commitErr e => logOpLoop rest (some e) (used + 1) (slept + 200)
      | .committed => ⟨none, used + 1, slept⟩

/-- `logOpCid` (shared by `LogPin` and `LogUnpin`): run the retry loop
for at most `CommitRetries` iterations and return `finalErr`. -/
def logOpCid (attempts : List AttemptOutcome) : LogOpResult :=
  logOpLoop (attempts.take CommitRetries) none 0 0

/-- An attempt outcome on which the retry loop records an error and
retries. -/
def isFail : AttemptOutcome → Bool
  | .redirectErr _ => true
  | .commitErr _ => true
  | _ => false

/-- An attempt that failed at the local `CommitOp` call — the only kind
after which the loop sleeps 200 ms. -/
def isCommitErr : AttemptOutcome → Bool
  | .commitErr _ => true
  | _ => false

/-- The error recorded for a failed attempt. -/
def failMsg : AttemptOutcome → Option String
  | .redirectErr e => some e
  | .commitErr e => some e
  | _ => none

/-- The error of the last attempt of a run (specification side). -/
def lastFailMsg : List AttemptOutcome → Option String
  | [] => none
  | [o] => failMsg o
  | _ :: rest => lastFailMsg rest

/-! ### Numpin allocator (src/allocator/numpin.go) -/

/-- `informer.NumpinMetricName`. -/
def NumpinMetricName : String := "numpin"

/-- `api.Metric` as described by the spec:
`Metric{name, value, valid, expiresAt}`. -/
structure Metric where
  name      : String
  value     : String
  valid     : Bool
  expiresAt : Nat
deriving DecidableEq, Repr

/-- Modelled from the spec: `Metric.Discard` (the api package is not
under src/) — consumers discard a metric that is not valid or is past
its expiry. -/
def Metric.Discard (m : Metric) (now : Nat) : Bool :=
  !m.valid || m.expiresAt < now

/-- `strconv.Atoi`: an optional sign followed by at least one decimal
digit; anything else is a parse error. -/
def atoi (s : String) : Option Int :=
  let withSign (digits : List Char) (sign : Int) : Option Int :=
    if digits = [] ∨ ¬ digits.all Char.isDigit then none
    else some (sign * (digits.foldl (fun a d => a * 10 + (d.toNat - '0'.toNat)) 0 : Nat))
  match s.toList with
  | '+' :: rest => withSign rest 1
  | '-' :: rest => withSign rest (-1)
  | l => withSign l 1

/-- `newMetricsSorter`'s filter pass: keep a candidate only when its
metric is named "numpin", not discarded, and has an integer-parsable
value; record the parsed pin count. -/
def metricsFilter (now : Nat) : List (PeerID × Metric) → List (PeerID × Int)
  | [] => []
  | (p, m) :: rest =>
      if m.name = NumpinMetricName ∧ ¬ m.Discard now then
        match atoi m.value with
        | some v => (p, v) :: metricsFilter now rest
        | none => metricsFilter now rest
      else metricsFilter now rest

/-- `Allocate`: filter the candidates as `newMetricsSorter` does, sort
by ascending pin count (`sort.Sort` on `metricsSorter`), and return the
peer list. -/
def Allocate (candidates : List (PeerID × Metric)) (now : Nat) : List PeerID :=
  ((metricsFilter now candidates).insertionSort (fun a b => a.2 ≤ b.2)).map Prod.fst

/-! ### Peer manager (src/peer_manager.go) -/

/-- A multiaddress: an optional `/ipfs/<peer id>` component plus the
transport part. -/
structure Multiaddr where
  pid   : Option PeerID
  trans : String
deriving DecidableEq, Repr

/-- `multiaddrSplit` (src/cluster/peerutils.go): extract the peer ID and
the decapsulated transport address, failing when the peer component is
missing. -/
def multiaddrSplit (addr : Multiaddr) : Except String (PeerID × String) :=
  match addr.pid with
  | none => .error "invalid peer multiaddress"
  | some pid => .ok (pid, addr.trans)

/-- The slice of the cluster that `peerManager.addPeer` touches: the
peer set, the transport peerstore (peer → stored addresses with a TTL
flag, `true` meaning permanent), the config peer list, the consensus
membership (`none` when the consensus component is nil), the config path
and the saved config contents. -/
structure PMState where
  peerSet        : List PeerID
  peerstore      : List (PeerID × String × Bool)
  configPeers    : List Multiaddr
  consensusPeers : Option (List PeerID)
  configPath     : Option String
  savedConfig    : Option (List Multiaddr)
deriving DecidableEq, Repr

/-- Modelled from the spec: `config.addPeer` (the Config type is not
under src/) — record the address in the config's peer list. -/
def configAddPeer (cfg : List Multiaddr) (addr : Multiaddr) : List Multiaddr :=
  cfg ++ [addr]

/-- `peerManager.addPeer`: split the address; an already-present peer ID
is a no-op returning that ID with no error; a new one is recorded, its
address stored with a permanent TTL, consensus notified when present,
and the config persisted when a config path is set. -/
def addPeer (st : PMState) (addr : Multiaddr) : PMState × Except String PeerID :=
  match multiaddrSplit addr with
  | .error e => (st, .error e)
  | .ok (peerID, decapAddr) =>
      if st.peerSet.contains peerID then (st, .ok peerID)
      else
        let st := { st with
          peerSet := st.peerSet ++ [peerID]
          peerstore := st.peerstore ++ [(peerID, decapAddr, true)]
          configPeers := configAddPeer st.configPeers addr }
        let st := { st with
          consensusPeers := st.consensusPeers.map (· ++ [peerID]) }
        let st :=
          match st.configPath with
          | some _ => { st with savedConfig := some st.configPeers }
          | none => st
        (st, .ok peerID)

/-! ### Concrete states and instances used by the theorems -/

/-- A tracker whose two work queues are at capacity, used as a concrete
input for the queue-full claims. -/
def mptFull : MapPinTracker :=
  ⟨[], List.replicate PinQueueSize (CidArgCid "qmx"),
    List.replicate PinQueueSize (CidArgCid "qmx"), "peerA"⟩

/-- A tracker holding one entry in `PinError` and one in `UnpinError`. -/
def mptErr : MapPinTracker :=
  ⟨[("qma", ⟨"qma", "peerA", TrackerStatus.pinError, 1, "boom"⟩),
    ("qmb", ⟨"qmb", "peerA", TrackerStatus.unpinError, 1, "boom"⟩),
    ("qmc", ⟨"qmc", "peerA", TrackerStatus.pinned, 1, ""⟩)], [], [], "peerA"⟩

/-- The empty tracker on peer "peerA". -/
def mptEmpty : MapPinTracker := ⟨[], [], [], "peerA"⟩

/-- A tracker holding one `Remote` entry. -/
def mptRemote : MapPinTracker :=
  ⟨[("qmr", ⟨"qmr", "peerA", TrackerStatus.remote, 1, ""⟩)], [], [], "peerA"⟩

instance : IsTotal (PeerID × Int) (fun a b => a.2 ≤ b.2) :=
  ⟨fun a b => le_total a.2 b.2⟩

instance : IsTrans (PeerID × Int) (fun a b => a.2 ≤ b.2) :=
  ⟨fun _ _ _ h1 h2 => le_trans h1 h2⟩

/-- A one-peer cluster slice with a config path set, used as a concrete
input for the peer-manager claim. -/
def pmBase : PMState :=
  ⟨["p1"], [("p1", "t1", true)], [⟨some "p1", "t1"⟩], some ["p1"],
    some "cfgpath", none⟩

/-- The tracker invariant: no stored entry has status `Unpinned`. -/
def noUnpinned (mpt : MapPinTracker) : Prop :=
  ∀ e ∈ mpt.status, e.2.status ≠ TrackerStatus.unpinned

instance (mpt : MapPinTracker) : Decidable (noUnpinned mpt) :=
  inferInstanceAs (Decidable (∀ e ∈ mpt.status, e.2.status ≠ TrackerStatus.unpinned))

/-- Specification-side image of `unsafeSetError` on a stored entry:
pin-side statuses map to a `PinError` entry, unpin-side statuses to an
`UnpinError` entry, and a `Remote` entry is untouched. -/
def markError (peer : PeerID) (k : Cid) (pi : PinInfo) (e : String) (now : Nat) :
    PinInfo :=
  match pi.status with
  | .pinned | .pinning | .pinError => ⟨k, peer, TrackerStatus.pinError, now, e⟩
  | .unpinned | .unpinning | .unpinError => ⟨k, peer, TrackerStatus.unpinError, now, e⟩
  | .remote => pi

/-- Specification-side trace of the reconciliation loop: the
(original, reconciled) entry pair for each snapshot entry, threading
the tracker state exactly as `syncAllLoop` does. -/
def syncAllTrace (mpt : MapPinTracker) (ipsMap : List (String × IPFSPinStatus))
    (now : Nat) : List PinInfo → List (PinInfo × PinInfo)
  | [] => []
  | pInfoOrig :: rest =>
      let ips := (alookup pInfoOrig.cid ipsMap).getD IPFSPinStatus.unpinned
      let res := mpt.syncStatus pInfoOrig.cid ips now
      (pInfoOrig, res.2) :: syncAllTrace res.1 ipsMap now rest

/-- The filter `SyncAll` applies to the reconciliation trace: keep a
pair when the status changed or the new status is an error status. -/
def syncChanged (pr : PinInfo × PinInfo) : Bool :=
  decide (pr.1.status ≠ pr.2.status ∨
    pr.2.status = TrackerStatus.unpinError ∨
    pr.2.status = TrackerStatus.pinError)

/-! ### Association-list lemmas -/

theorem alookup_aset_self {α : Type} (k : String) (v : α) (l : List (String × α)) :
    alookup k (aset k v l) = some v := by
  induction l with
  | nil => simp [aset, alookup]
  | cons hd tl ih =>
      obtain ⟨k', v'⟩ := hd
      by_cases h : k' = k
      · simp [aset, alookup, h]
      · simp [aset, alookup, h, ih]

theorem alookup_aset_ne {α : Type} {k q : String} (hne : q ≠ k) (v : α)
    (l : List (String × α)) : alookup q (aset k v l) = alookup q l := by
  induction l with
  | nil => simp [aset, alookup, Ne.symm hne]
  | cons hd tl ih =>
      obtain ⟨k', v'⟩ := hd
      by_cases h : k' = k
      · subst h
        simp [aset, alookup, Ne.symm hne]
      · by_cases h2 : k' = q <;>
          simp [aset, alookup, h, h2, ih, hne, Ne.symm hne]

theorem alookup_aerase_ne {α : Type} {k q : String} (hne : q ≠ k)
    (l : List (String × α)) : alookup q (aerase k l) = alookup q l := by
  induction l with
  | nil => simp [aerase]
  | cons hd tl ih =>
      obtain ⟨k', v'⟩ := hd
      by_cases h : k' = k
      · subst h
        simp [aerase, alookup, Ne.symm hne]
      · by_cases h2 : k' = q <;>
          simp [aerase, alookup, h, h2, ih, hne, Ne.symm hne]

theorem alookup_aerase_self {α : Type} (k : String) {l : List (String × α)}
    (hnd : (l.map Prod.fst).Nodup) : alookup k (aerase k l) = none := by
  induction l with
  | nil => simp [aerase, alookup]
  | cons hd tl ih =>
      obtain ⟨k', v'⟩ := hd
      simp only [List.map_cons, List.nodup_cons] at hnd
      by_cases h : k' = k
      · subst h
        simp only [aerase, if_pos rfl]
        cases hlk : alookup k' tl with
        | none => exact hlk
        | some w =>
            exfalso
            apply hnd.1
            clear ih hnd
            induction tl with
            | nil => simp [alookup] at hlk
            | cons hd2 tl2 ih2 =>
                obtain ⟨k2, v2⟩ := hd2
                by_cases h2 : k2 = k'
                · subst h2; simp
                · simp only [alookup, if_neg h2] at hlk
                  simp [ih2 hlk]
      · simp [aerase, alookup, h, ih hnd.2]

theorem aerase_of_none {α : Type} {k : String} {l : List (String × α)}
    (h : alookup k l = none) : aerase k l = l := by
  induction l with
  | nil => simp [aerase]
  | cons hd tl ih =>
      obtain ⟨k', v'⟩ := hd
      by_cases h2 : k' = k
      · subst h2; simp [alookup] at h
      · simp only [alookup, if_neg h2] at h
        simp [aerase, h2, ih h]

theorem aset_aset_self {α : Type} (k : String) (v w : α) (l : List (String × α)) :
    aset k v (aset k w l) = aset k v l := by
  induction l with
  | nil => simp [aset]
  | cons hd tl ih =>
      obtain ⟨k', v'⟩ := hd
      by_cases h : k' = k <;> simp [aset, h, ih]

theorem mem_aset {α : Type} {e : String × α} {k : String} {v : α}
    {l : List (String × α)} (h : e ∈ aset k v l) : e = (k, v) ∨ e ∈ l := by
  induction l with
  | nil =>
      left
      have h' : e ∈ [(k, v)] := by simpa [aset] using h
      simpa using h'
  | cons hd tl ih =>
      obtain ⟨k', v'⟩ := hd
      by_cases hk : k' = k
      · have h' : e ∈ (k', v) :: tl := by simpa [aset, hk] using h
        rcases List.mem_cons.1 h' with h1 | h1
        · left; rw [h1, hk]
        · right; exact List.mem_cons.2 (Or.inr h1)
      · have h' : e ∈ (k', v') :: aset k v tl := by simpa [aset, hk] using h
        rcases List.mem_cons.1 h' with h1 | h1
        · right; exact List.mem_cons.2 (Or.inl h1)
        · rcases ih h1 with h2 | h2
          · left; exact h2
          · right; exact List.mem_cons.2 (Or.inr h2)

theorem mem_aerase {α : Type} {e : String × α} {k : String}
    {l : List (String × α)} (h : e ∈ aerase k l) : e ∈ l := by
  induction l with
  | nil => simpa [aerase] using h
  | cons hd tl ih =>
      obtain ⟨k', v'⟩ := hd
      by_cases hk : k' = k
      · have h' : e ∈ tl := by simpa [aerase, hk] using h
        exact List.mem_cons.2 (Or.inr h')
      · have h' : e ∈ (k', v') :: aerase k tl := by simpa [aerase, hk] using h
        rcases List.mem_cons.1 h' with h1 | h1
        · exact List.mem_cons.2 (Or.inl h1)
        · exact List.mem_cons.2 (Or.inr (ih h1))

theorem mem_keys_aset {α : Type} {q k : String} {v : α} {l : List (String × α)}
    (h : q ∈ (aset k v l).map Prod.fst) : q = k ∨ q ∈ l.map Prod.fst := by
  rcases List.mem_map.1 h with ⟨e, he, hfst⟩
  rcases mem_aset he with h2 | h2
  · left; rw [h2] at hfst; exact hfst.symm
  · right; exact List.mem_map.2 ⟨e, h2, hfst⟩

theorem keys_aset_nodup {α : Type} {k : String} {v : α} {l : List (String × α)}
    (hnd : (l.map Prod.fst).Nodup) : ((aset k v l).map Prod.fst).Nodup := by
  induction l with
  | nil => simp [aset]
  | cons hd tl ih =>
      obtain ⟨k', v'⟩ := hd
      simp only [List.map_cons, List.nodup_cons] at hnd
      by_cases hk : k' = k
      · have : aset k v ((k', v') :: tl) = (k', v) :: tl := by simp [aset, hk]
        rw [this]
        simp only [List.map_cons, List.nodup_cons]
        exact ⟨hnd.1, hnd.2⟩
      · have : aset k v ((k', v') :: tl) = (k', v') :: aset k v tl := by
          simp [aset, hk]
        rw [this]
        simp only [List.map_cons, List.nodup_cons]
        refine ⟨?_, ih hnd.2⟩
        intro hmem
        rcases mem_keys_aset hmem with h2 | h2
        · exact hk h2
        · exact hnd.1 h2

theorem alookup_some_mem_keys {α : Type} {k : String} {l : List (String × α)}
    {v : α} (h : alookup k l = some v) : k ∈ l.map Prod.fst := by
  induction l with
  | nil => simp [alookup] at h
  | cons hd tl ih =>
      obtain ⟨k', v'⟩ := hd
      by_cases hk : k' = k
      · simp [hk]
      · simp only [alookup, if_neg hk] at h
        simp [ih h]

theorem keys_aerase_nodup {α : Type} {k : String} {l : List (String × α)}
    (hnd : (l.map Prod.fst).Nodup) : ((aerase k l).map Prod.fst).Nodup := by
  induction l with
  | nil => simp [aerase]
  | cons hd tl ih =>
      obtain ⟨k', v'⟩ := hd
      simp only [List.map_cons, List.nodup_cons] at hnd
      by_cases hk : k' = k
      · have : aerase k ((k', v') :: tl) = tl := by simp [aerase, hk]
        rw [this]
        exact hnd.2
      · have : aerase k ((k', v') :: tl) = (k', v') :: aerase k tl := by
          simp [aerase, hk]
        rw [this]
        simp only [List.map_cons, List.nodup_cons]
        refine ⟨?_, ih hnd.2⟩
        intro hmem
        rcases List.mem_map.1 hmem with ⟨e, he, hfst⟩
        exact hnd.1 (List.mem_map.2 ⟨e, mem_aerase he, hfst⟩)

/-! ### Claim C6 — State map operations -/

/-- C6: `Add` of a `CidArg` whose CID is already present overwrites the
stored record (upsert), so `Add` applied twice yields a `State` equal to
a single `Add`; `Rm` of an absent CID is a no-op returning no error and
leaving the mapping unchanged; `Get` of an absent CID returns the empty
`CidArg`. -/
theorem claim_C6 (st : MapState) (c : CidArg) (d : Cid)
    (habs : alookup d st.PinMap = none) :
    alookup c.cid (st.Add c).PinMap = some c.ToSerial ∧
    (st.Add c).Add c = st.Add c ∧
    st.Rm d = st ∧
    st.Get d = ⟨"", [], false⟩ := by
  refine ⟨?_, ?_, ?_, ?_⟩
  · exact alookup_aset_self c.cid c.ToSerial st.PinMap
  · simp [MapState.Add, aset_aset_self]
  · simp [MapState.Rm, aerase_of_none habs]
  · simp [MapState.Get, habs]

/-- Witness for C6 at a concrete one-entry state. -/
theorem claim_C6_witness :
    alookup "qmz" (MapState.mk [("qma", ⟨"qma", ["p1"], false⟩)]).PinMap = none ∧
    (alookup "qmb" ((MapState.mk [("qma", ⟨"qma", ["p1"], false⟩)]).Add
        ⟨"qmb", ["p2"], true⟩).PinMap = some (CidArg.ToSerial ⟨"qmb", ["p2"], true⟩) ∧
      ((MapState.mk [("qma", ⟨"qma", ["p1"], false⟩)]).Add ⟨"qmb", ["p2"], true⟩).Add
          ⟨"qmb", ["p2"], true⟩ =
        (MapState.mk [("qma", ⟨"qma", ["p1"], false⟩)]).Add ⟨"qmb", ["p2"], true⟩ ∧
      (MapState.mk [("qma", ⟨"qma", ["p1"], false⟩)]).Rm "qmz" =
        MapState.mk [("qma", ⟨"qma", ["p1"], false⟩)] ∧
      (MapState.mk [("qma", ⟨"qma", ["p1"], false⟩)]).Get "qmz" = ⟨"", [], false⟩) :=
  ⟨by decide, claim_C6 (MapState.mk [("qma", ⟨"qma", ["p1"], false⟩)])
    ⟨"qmb", ["p2"], true⟩ "qmz" (by decide)⟩

/-! ### Tracker helper lemmas -/

namespace MapPinTracker

theorem set_fields (mpt : MapPinTracker) (c : Cid) (s : TrackerStatus) (now : Nat) :
    (mpt.set c s now).pinCh = mpt.pinCh ∧
    (mpt.set c s now).unpinCh = mpt.unpinCh ∧
    (mpt.set c s now).peerID = mpt.peerID := by
  by_cases h : s = TrackerStatus.unpinned <;> simp [set, unsafeSet, h]

theorem setError_fields (mpt : MapPinTracker) (c : Cid) (e : String) (now : Nat) :
    (mpt.setError c e now).pinCh = mpt.pinCh ∧
    (mpt.setError c e now).unpinCh = mpt.unpinCh ∧
    (mpt.setError c e now).peerID = mpt.peerID := by
  cases h : (mpt.unsafeGet c now).status <;>
    simp [setError, unsafeSetError, h]

theorem lookup_set_self (mpt : MapPinTracker) (c : Cid) {s : TrackerStatus}
    (hs : s ≠ TrackerStatus.unpinned) (now : Nat) :
    alookup c (mpt.set c s now).status = some ⟨c, mpt.peerID, s, now, ""⟩ := by
  simp [set, unsafeSet, hs, alookup_aset_self]

theorem lookup_set_ne (mpt : MapPinTracker) {c q : Cid} (hne : q ≠ c)
    (s : TrackerStatus) (now : Nat) :
    alookup q (mpt.set c s now).status = alookup q mpt.status := by
  by_cases h : s = TrackerStatus.unpinned <;>
    simp [set, unsafeSet, h, alookup_aset_ne hne, alookup_aerase_ne hne]

theorem lookup_setError_ne (mpt : MapPinTracker) {c q : Cid} (hne : q ≠ c)
    (e : String) (now : Nat) :
    alookup q (mpt.setError c e now).status = alookup q mpt.status := by
  cases h : (mpt.unsafeGet c now).status <;>
    simp [setError, unsafeSetError, h, alookup_aset_ne hne]

theorem lookup_setError_pinSide (mpt : MapPinTracker) {c : Cid} {now : Nat}
    (h : (mpt.unsafeGet c now).status = TrackerStatus.pinned ∨
         (mpt.unsafeGet c now).status = TrackerStatus.pinning ∨
         (mpt.unsafeGet c now).status = TrackerStatus.pinError) (e : String) :
    alookup c (mpt.setError c e now).status =
      some ⟨c, mpt.peerID, TrackerStatus.pinError, now, e⟩ := by
  rcases h with h | h | h <;>
    simp [setError, unsafeSetError, h, alookup_aset_self]

theorem lookup_setError_unpinSide (mpt : MapPinTracker) {c : Cid} {now : Nat}
    (h : (mpt.unsafeGet c now).status = TrackerStatus.unpinned ∨
         (mpt.unsafeGet c now).status = TrackerStatus.unpinning ∨
         (mpt.unsafeGet c now).status = TrackerStatus.unpinError) (e : String) :
    alookup c (mpt.setError c e now).status =
      some ⟨c, mpt.peerID, TrackerStatus.unpinError, now, e⟩ := by
  rcases h with h | h | h <;>
    simp [setError, unsafeSetError, h, alookup_aset_self]

theorem setError_remote (mpt : MapPinTracker) {c : Cid} {now : Nat}
    (h : (mpt.unsafeGet c now).status = TrackerStatus.remote) (e : String) :
    mpt.setError c e now = mpt := by
  simp [setError, unsafeSetError, h]

theorem unsafeGet_set_self (mpt : MapPinTracker) (c : Cid) {s : TrackerStatus}
    (hs : s ≠ TrackerStatus.unpinned) (now now' : Nat) :
    (mpt.set c s now).unsafeGet c now' = ⟨c, mpt.peerID, s, now, ""⟩ := by
  simp [unsafeGet, lookup_set_self mpt c hs now]

end MapPinTracker

/-! ### Claim C2 — queue-full behaviour of Track and Untrack -/

/-- C2: when the pin (resp. unpin) queue already holds `PinQueueSize`
items, `Track` (resp. `Untrack`) of a locally-pinned CID records the
entry with status `PinError` (resp. `UnpinError`) carrying the
queue-full error, returns that error, and leaves the queued items
untouched. -/
theorem claim_C2 (mpt : MapPinTracker) (c : CidArg) (d : Cid) (now : Nat)
    (uerr : Option String)
    (hremote : mpt.isRemote c = false)
    (hpinq : PinQueueSize ≤ mpt.pinCh.length)
    (hunpinq : PinQueueSize ≤ mpt.unpinCh.length) :
    (mpt.Track c now uerr).2 = some ErrPinQueueFull ∧
    alookup c.cid (mpt.Track c now uerr).1.status =
      some ⟨c.cid, mpt.peerID, TrackerStatus.pinError, now, ErrPinQueueFull⟩ ∧
    (mpt.Track c now uerr).1.pinCh = mpt.pinCh ∧
    (mpt.Untrack d now).2 = some ErrUnpinQueueFull ∧
    alookup d (mpt.Untrack d now).1.status =
      some ⟨d, mpt.peerID, TrackerStatus.unpinError, now, ErrUnpinQueueFull⟩ ∧
    (mpt.Untrack d now).1.unpinCh = mpt.unpinCh := by
  have hpinfull : ¬ (mpt.set c.cid TrackerStatus.pinning now).pinCh.length < PinQueueSize := by
    rw [(mpt.set_fields c.cid TrackerStatus.pinning now).1]
    exact Nat.not_lt.2 hpinq
  have hunpinfull : ¬ (mpt.set d TrackerStatus.unpinning now).unpinCh.length < PinQueueSize := by
    rw [(mpt.set_fields d TrackerStatus.unpinning now).2.1]
    exact Nat.not_lt.2 hunpinq
  have htrack : mpt.Track c now uerr =
      ((mpt.set c.cid TrackerStatus.pinning now).setError c.cid ErrPinQueueFull now,
        some ErrPinQueueFull) := by
    simp [MapPinTracker.Track, hremote, hpinfull]
  have huntrack : mpt.Untrack d now =
      ((mpt.set d TrackerStatus.unpinning now).setError d ErrUnpinQueueFull now,
        some ErrUnpinQueueFull) := by
    simp [MapPinTracker.Untrack, hunpinfull]
  have hgetp : ((mpt.set c.cid TrackerStatus.pinning now).unsafeGet c.cid now).status =
      TrackerStatus.pinning := by
    rw [mpt.unsafeGet_set_self c.cid (by simp) now now]
  have hgetu : ((mpt.set d TrackerStatus.unpinning now).unsafeGet d now).status =
      TrackerStatus.unpinning := by
    rw [mpt.unsafeGet_set_self d (by simp) now now]
  refine ⟨by rw [htrack], ?_, ?_, by rw [huntrack], ?_, ?_⟩
  · rw [htrack]
    have := MapPinTracker.lookup_setError_pinSide
      (mpt.set c.cid TrackerStatus.pinning now) (Or.inr (Or.inl hgetp)) ErrPinQueueFull
    rw [this, (mpt.set_fields c.cid TrackerStatus.pinning now).2.2]
  · rw [htrack,
      (MapPinTracker.setError_fields _ c.cid ErrPinQueueFull now).1,
      (mpt.set_fields c.cid TrackerStatus.pinning now).1]
  · rw [huntrack]
    have := MapPinTracker.lookup_setError_unpinSide
      (mpt.set d TrackerStatus.unpinning now) (Or.inr (Or.inl hgetu)) ErrUnpinQueueFull
    rw [this, (mpt.set_fields d TrackerStatus.unpinning now).2.2]
  · rw [huntrack,
      (MapPinTracker.setError_fields _ d ErrUnpinQueueFull now).2.1,
      (mpt.set_fields d TrackerStatus.unpinning now).2.1]


/-- Witness for C2 at a tracker with both queues at capacity. -/
theorem claim_C2_witness :
    (mptFull.isRemote ⟨"qmc", [], true⟩ = false ∧
     PinQueueSize ≤ mptFull.pinCh.length ∧
     PinQueueSize ≤ mptFull.unpinCh.length) ∧
    ((mptFull.Track ⟨"qmc", [], true⟩ 7 none).2 = some ErrPinQueueFull ∧
     alookup "qmc" (mptFull.Track ⟨"qmc", [], true⟩ 7 none).1.status =
       some ⟨"qmc", mptFull.peerID, TrackerStatus.pinError, 7, ErrPinQueueFull⟩ ∧
     (mptFull.Track ⟨"qmc", [], true⟩ 7 none).1.pinCh = mptFull.pinCh ∧
     (mptFull.Untrack "qmd" 7).2 = some ErrUnpinQueueFull ∧
     alookup "qmd" (mptFull.Untrack "qmd" 7).1.status =
       some ⟨"qmd", mptFull.peerID, TrackerStatus.unpinError, 7, ErrUnpinQueueFull⟩ ∧
     (mptFull.Untrack "qmd" 7).1.unpinCh = mptFull.unpinCh) :=
  ⟨⟨rfl, by simp [mptFull], by simp [mptFull]⟩,
    claim_C2 mptFull ⟨"qmc", [], true⟩ "qmd" 7 none rfl
      (by simp [mptFull]) (by simp [mptFull])⟩

/-! ### Claim C4 — Recover -/

/-- C4: `Recover` on an entry whose status is neither `PinError` nor
`UnpinError` returns the current entry unchanged with no error; on
`PinError` it synchronously re-runs the daemon pin and on success the
entry becomes `Pinned`; on `UnpinError` it synchronously unpins and on
success the entry becomes `Unpinned`, i.e. is deleted. -/
theorem claim_C4 (mpt : MapPinTracker) (c : Cid) (now : Nat) (derr : Option String)
    (hnd : (mpt.status.map Prod.fst).Nodup) :
    ((mpt.get c now).status ≠ TrackerStatus.pinError ∧
        (mpt.get c now).status ≠ TrackerStatus.unpinError →
      mpt.Recover c now derr = (mpt, mpt.get c now, none)) ∧
    ((mpt.get c now).status = TrackerStatus.pinError →
      (mpt.Recover c now none).2.2 = none ∧
      alookup c (mpt.Recover c now none).1.status =
        some ⟨c, mpt.peerID, TrackerStatus.pinned, now, ""⟩ ∧
      (mpt.Recover c now none).2.1 = ⟨c, mpt.peerID, TrackerStatus.pinned, now, ""⟩) ∧
    ((mpt.get c now).status = TrackerStatus.unpinError →
      (mpt.Recover c now none).2.2 = none ∧
      alookup c (mpt.Recover c now none).1.status = none ∧
      (mpt.Recover c now none).2.1 = ⟨c, mpt.peerID, TrackerStatus.unpinned, now, ""⟩) := by
  refine ⟨?_, ?_, ?_⟩
  · intro h
    simp [MapPinTracker.Recover, h.1, h.2]
  · intro h
    have hrec : mpt.Recover c now none =
        ((mpt.set c TrackerStatus.pinning now).set c TrackerStatus.pinned now,
          ((mpt.set c TrackerStatus.pinning now).set c TrackerStatus.pinned now).get c now,
          none) := by
      simp [MapPinTracker.Recover, h, MapPinTracker.pin]
    have hlk : alookup c
        ((mpt.set c TrackerStatus.pinning now).set c TrackerStatus.pinned now).status =
        some ⟨c, mpt.peerID, TrackerStatus.pinned, now, ""⟩ := by
      rw [MapPinTracker.lookup_set_self _ c (by simp) now,
        (mpt.set_fields c TrackerStatus.pinning now).2.2]
    refine ⟨by rw [hrec], by rw [hrec]; exact hlk, ?_⟩
    rw [hrec]
    simp [MapPinTracker.get, MapPinTracker.unsafeGet, hlk]
  · intro h
    have hrec : mpt.Recover c now none =
        (mpt.set c TrackerStatus.unpinned now,
          (mpt.set c TrackerStatus.unpinned now).get c now, none) := by
      simp [MapPinTracker.Recover, h, MapPinTracker.unpin]
    have hlk : alookup c (mpt.set c TrackerStatus.unpinned now).status = none := by
      simp [MapPinTracker.set, MapPinTracker.unsafeSet]
      exact alookup_aerase_self c hnd
    refine ⟨by rw [hrec], by rw [hrec]; exact hlk, ?_⟩
    rw [hrec]
    simp [MapPinTracker.get, MapPinTracker.unsafeGet, hlk,
      MapPinTracker.set, MapPinTracker.unsafeSet, alookup_aerase_self c hnd]


/-- Witness for C4: the three Recover branches at a concrete tracker. -/
theorem claim_C4_witness :
    (mptErr.status.map Prod.fst).Nodup ∧
    ((mptErr.get "qmc" 4).status ≠ TrackerStatus.pinError ∧
        (mptErr.get "qmc" 4).status ≠ TrackerStatus.unpinError) ∧
    mptErr.Recover "qmc" 4 none = (mptErr, mptErr.get "qmc" 4, none) ∧
    (mptErr.get "qma" 4).status = TrackerStatus.pinError ∧
    alookup "qma" (mptErr.Recover "qma" 4 none).1.status =
      some ⟨"qma", mptErr.peerID, TrackerStatus.pinned, 4, ""⟩ ∧
    (mptErr.get "qmb" 4).status = TrackerStatus.unpinError ∧
    alookup "qmb" (mptErr.Recover "qmb" 4 none).1.status = none := by
  refine ⟨by decide, ⟨by decide, by decide⟩, ?_, by decide, ?_, by decide, ?_⟩
  · exact (claim_C4 mptErr "qmc" 4 none (by decide)).1 ⟨by decide, by decide⟩
  · exact ((claim_C4 mptErr "qma" 4 none (by decide)).2.1 (by decide)).2.1
  · exact ((claim_C4 mptErr "qmb" 4 none (by decide)).2.2 (by decide)).2.1

/-! ### Claim C1 — Sync on an Unpinned entry that the daemon reports pinned -/


/-- Counterexample to C1 as stated: on the empty tracker (status
`Unpinned` for every CID) with the daemon reporting the CID pinned,
`Sync` produces status `UnpinError`, not `PinError`. -/
theorem claim_C1_counterexample :
    (mptEmpty.get "qme" 0).status = TrackerStatus.unpinned ∧
    IPFSPinStatus.IsPinned IPFSPinStatus.pinned = true ∧
    (mptEmpty.Sync "qme" 0 (Except.ok IPFSPinStatus.pinned)).2.1.status ≠
      TrackerStatus.pinError ∧
    (mptEmpty.Sync "qme" 0 (Except.ok IPFSPinStatus.pinned)).2.1.status =
      TrackerStatus.unpinError := by decide

/-- C1 (amended): for a CID whose tracker status is `Unpinned`, if
`Sync` observes the daemon reporting it pinned, the resulting entry has
status `UnpinError` (the unpin-side polarity that `unsafeSetError`
assigns to an Unpinned entry) with error "the item is unexpectedly
pinned on IPFS". -/
theorem claim_C1 (mpt : MapPinTracker) (c : Cid) (now : Nat) (ips : IPFSPinStatus)
    (hst : (mpt.get c now).status = TrackerStatus.unpinned)
    (hips : ips.IsPinned = true) :
    (mpt.Sync c now (Except.ok ips)).2.1 =
      ⟨c, mpt.peerID, TrackerStatus.unpinError, now, errPinned⟩ ∧
    alookup c (mpt.Sync c now (Except.ok ips)).1.status =
      some ⟨c, mpt.peerID, TrackerStatus.unpinError, now, errPinned⟩ ∧
    (mpt.syncStatus c ips now).2 =
      ⟨c, mpt.peerID, TrackerStatus.unpinError, now, errPinned⟩ := by
  have hget : (mpt.unsafeGet c now).status = TrackerStatus.unpinned := hst
  have hlk : alookup c (mpt.setError c errPinned now).status =
      some ⟨c, mpt.peerID, TrackerStatus.unpinError, now, errPinned⟩ :=
    MapPinTracker.lookup_setError_unpinSide mpt (Or.inl hget) errPinned
  have hsync : mpt.syncStatus c ips now =
      (mpt.setError c errPinned now, (mpt.setError c errPinned now).get c now) := by
    simp [MapPinTracker.syncStatus, hst, hips]
  have hgetres : (mpt.setError c errPinned now).get c now =
      ⟨c, mpt.peerID, TrackerStatus.unpinError, now, errPinned⟩ := by
    simp [MapPinTracker.get, MapPinTracker.unsafeGet, hlk]
  refine ⟨?_, ?_, ?_⟩
  · simp [MapPinTracker.Sync, hsync, hgetres]
  · simp [MapPinTracker.Sync, hsync, hlk]
  · rw [hsync, hgetres]

/-- Witness for C1 (amended) at the empty tracker. -/
theorem claim_C1_witness :
    (mptEmpty.get "qme" 3).status = TrackerStatus.unpinned ∧
    IPFSPinStatus.IsPinned IPFSPinStatus.pinned = true ∧
    (mptEmpty.Sync "qme" 3 (Except.ok IPFSPinStatus.pinned)).2.1 =
      ⟨"qme", mptEmpty.peerID, TrackerStatus.unpinError, 3, errPinned⟩ :=
  ⟨by decide, by decide,
    (claim_C1 mptEmpty "qme" 3 IPFSPinStatus.pinned (by decide) (by decide)).1⟩

/-! ### Claim C10 — Remote entries are untouched by error marking and sync -/

/-- Lemma: the bulk-failure loop of `SyncAll` never changes a binding
whose stored status is `Remote`. -/
theorem syncAllFail_remote_frame (e : String) (now : Nat) (k : Cid) (pi : PinInfo)
    (hrem : pi.status = TrackerStatus.remote) :
    ∀ (ks : List String) (mpt : MapPinTracker), alookup k mpt.status = some pi →
      alookup k (MapPinTracker.syncAllFail mpt e now ks).1.status = some pi := by
  intro ks
  induction ks with
  | nil => intro mpt hlk; exact hlk
  | cons k0 rest ih =>
      intro mpt hlk
      show alookup k (MapPinTracker.syncAllFail
        (mpt.unsafeSetError k0 e now) e now rest).1.status = some pi
      by_cases hk : k0 = k
      · subst hk
        have : mpt.unsafeSetError k0 e now = mpt := by
          simp [MapPinTracker.unsafeSetError, MapPinTracker.unsafeGet, hlk, hrem]
        rw [this]
        exact ih mpt hlk
      · apply ih
        have hfr := MapPinTracker.lookup_setError_ne mpt
          (c := k0) (q := k) (fun h => hk h.symm) e now
        rw [show mpt.setError k0 e now = mpt.unsafeSetError k0 e now from rfl] at hfr
        rw [hfr]
        exact hlk

/-- C10: error marking and reconciliation never change a `Remote`
entry: `setError` is the identity on a tracker whose entry for the CID
is `Remote`, `syncStatus` leaves the tracker unchanged and returns the
entry whatever the daemon reports, and the bulk-failure path of
`SyncAll` preserves every stored `Remote` binding. -/
theorem claim_C10 (mpt : MapPinTracker) (c : Cid) (e : String) (now : Nat)
    (ips : IPFSPinStatus)
    (hst : (mpt.get c now).status = TrackerStatus.remote) :
    mpt.setError c e now = mpt ∧
    mpt.syncStatus c ips now = (mpt, mpt.get c now) ∧
    (∀ k pi, alookup k mpt.status = some pi → pi.status = TrackerStatus.remote →
      alookup k (mpt.SyncAll now (Except.error e)).1.status = some pi) := by
  refine ⟨MapPinTracker.setError_remote mpt hst e, ?_, ?_⟩
  · cases hips : ips.IsPinned <;> simp [MapPinTracker.syncStatus, hst, hips]
  · intro k pi hlk hrem
    show alookup k (MapPinTracker.syncAllFail mpt e now
      (mpt.status.map Prod.fst)).1.status = some pi
    exact syncAllFail_remote_frame e now k pi hrem _ mpt hlk


/-- Witness for C10 at a tracker with a Remote entry. -/
theorem claim_C10_witness :
    (mptRemote.get "qmr" 5).status = TrackerStatus.remote ∧
    mptRemote.setError "qmr" "boom" 5 = mptRemote ∧
    mptRemote.syncStatus "qmr" IPFSPinStatus.pinned 5 =
      (mptRemote, mptRemote.get "qmr" 5) ∧
    alookup "qmr" (mptRemote.SyncAll 5 (Except.error "boom")).1.status =
      some ⟨"qmr", "peerA", TrackerStatus.remote, 1, ""⟩ := by
  have h := claim_C10 mptRemote "qmr" "boom" 5 IPFSPinStatus.pinned (by decide)
  exact ⟨by decide, h.1, h.2.1,
    h.2.2 "qmr" ⟨"qmr", "peerA", TrackerStatus.remote, 1, ""⟩ (by decide) (by decide)⟩

/-! ### Claim C8 — numpin allocator -/


/-- Membership in the allocator's filter pass: a (peer, count) pair
survives exactly when the peer carried a valid, unexpired "numpin"
metric whose value parses to that count. -/
theorem mem_metricsFilter (now : Nat) (p : PeerID) (v : Int) :
    ∀ (cands : List (PeerID × Metric)),
      ((p, v) ∈ metricsFilter now cands ↔
        ∃ m, (p, m) ∈ cands ∧ m.name = NumpinMetricName ∧
          m.Discard now = false ∧ atoi m.value = some v)
  | [] => by simp [metricsFilter]
  | (q, m0) :: rest => by
      have ih := mem_metricsFilter now p v rest
      by_cases hc : m0.name = NumpinMetricName ∧ ¬ m0.Discard now
      · cases hv : atoi m0.value with
        | some w =>
            rw [show metricsFilter now ((q, m0) :: rest) =
                (q, w) :: metricsFilter now rest by
              simp [metricsFilter, hc, hv]]
            constructor
            · intro hmem
              rcases List.mem_cons.1 hmem with h1 | h1
              · have hp : p = q ∧ v = w := by simpa using h1
                refine ⟨m0, List.mem_cons.2 (Or.inl (by rw [hp.1])),
                  hc.1, by simpa using hc.2, ?_⟩
                rw [hv, hp.2]
              · rcases ih.1 h1 with ⟨m, hm, h2, h3, h4⟩
                exact ⟨m, List.mem_cons.2 (Or.inr hm), h2, h3, h4⟩
            · rintro ⟨m, hm, h2, h3, h4⟩
              rcases List.mem_cons.1 hm with h1 | h1
              · have hp : p = q ∧ m = m0 := by simpa using h1
                rw [hp.2, hv] at h4
                have hv2 : v = w := by
                  have := Option.some.inj h4.symm
                  omega
                exact List.mem_cons.2 (Or.inl (by rw [hp.1, hv2]))
              · exact List.mem_cons.2 (Or.inr (ih.2 ⟨m, h1, h2, h3, h4⟩))
        | none =>
            rw [show metricsFilter now ((q, m0) :: rest) =
                metricsFilter now rest by simp [metricsFilter, hc, hv]]
            constructor
            · intro hmem
              rcases ih.1 hmem with ⟨m, hm, h2, h3, h4⟩
              exact ⟨m, List.mem_cons.2 (Or.inr hm), h2, h3, h4⟩
            · rintro ⟨m, hm, h2, h3, h4⟩
              rcases List.mem_cons.1 hm with h1 | h1
              · have hp : m = m0 := (by simpa using h1 : p = q ∧ m = m0).2
                rw [hp, hv] at h4
                exact absurd h4 (by simp)
              · exact ih.2 ⟨m, h1, h2, h3, h4⟩
      · have heq : metricsFilter now ((q, m0) :: rest) = metricsFilter now rest := by
          rw [metricsFilter, if_neg hc]
        rw [heq]
        constructor
        · intro hmem
          rcases ih.1 hmem with ⟨m, hm, h2, h3, h4⟩
          exact ⟨m, List.mem_cons.2 (Or.inr hm), h2, h3, h4⟩
        · rintro ⟨m, hm, h2, h3, h4⟩
          rcases List.mem_cons.1 hm with h1 | h1
          · have hp : m = m0 := (by simpa using h1 : p = q ∧ m = m0).2
            rw [hp] at h2 h3
            exact absurd ⟨h2, by simp [h3]⟩ hc
          · exact ih.2 ⟨m, h1, h2, h3, h4⟩

/-- C8: `Allocate` returns exactly the candidate peers carrying a
valid, unexpired "numpin" metric with an integer-parsable value,
ordered by ascending pin count; discarded, misnamed or non-numeric
metrics make a peer ineligible (absent from the result) rather than
ranked last. -/
theorem claim_C8 (candidates : List (PeerID × Metric)) (now : Nat) :
    ∃ ranked : List (PeerID × Int),
      Allocate candidates now = ranked.map Prod.fst ∧
      List.Sorted (fun a b : PeerID × Int => a.2 ≤ b.2) ranked ∧
      ∀ p v, ((p, v) ∈ ranked ↔
        ∃ m, (p, m) ∈ candidates ∧ m.name = NumpinMetricName ∧
          m.Discard now = false ∧ atoi m.value = some v) := by
  refine ⟨(metricsFilter now candidates).insertionSort (fun a b => a.2 ≤ b.2),
    rfl, List.sorted_insertionSort _ _, ?_⟩
  intro p v
  rw [List.mem_insertionSort]
  exact mem_metricsFilter now p v candidates

/-- Sanity check of the allocator on a concrete candidate map: the
expired, misnamed, non-numeric and invalid metrics are dropped and the
rest is ordered by ascending pin count. -/
example :
    Allocate
      [("pA", ⟨"numpin", "10", true, 100⟩),
       ("pB", ⟨"numpin", "3", true, 100⟩),
       ("pC", ⟨"numpin", "7", true, 2⟩),
       ("pD", ⟨"freespace", "1", true, 100⟩),
       ("pE", ⟨"numpin", "x1", true, 100⟩),
       ("pF", ⟨"numpin", "5", false, 100⟩)] 50 = ["pB", "pA"] := by decide

/-! ### Claim C7 — commit retry loop -/

/-- The retry loop never consumes more iterations than it is given. -/
theorem logOpLoop_used_le :
    ∀ (l : List AttemptOutcome) (fe : Option String) (u s : Nat),
      (logOpLoop l fe u s).used ≤ u + l.length := by
  intro l
  induction l with
  | nil => intro fe u s; simp [logOpLoop]
  | cons o rest ih =>
      intro fe u s
      cases o with
      | redirectErr e =>
          have h := ih (some e) (u + 1) s
          simp only [logOpLoop, List.length_cons]
          omega
      | commitErr e =>
          have h := ih (some e) (u + 1) (s + 200)
          simp only [logOpLoop, List.length_cons]
          omega
      | redirected => simp only [logOpLoop, List.length_cons]; omega
      | committed => simp only [logOpLoop, List.length_cons]; omega

/-- Counting commit errors skips an attempt that is not one. -/
theorem countP_cons_commitFalse (o : AttemptOutcome) (ho : isCommitErr o = false)
    (l : List AttemptOutcome) :
    (o :: l).countP isCommitErr = l.countP isCommitErr := by
  rw [List.countP_cons, ho]
  simp

/-- Counting commit errors counts a commit-failed attempt once. -/
theorem countP_cons_commitTrue (o : AttemptOutcome) (ho : isCommitErr o = true)
    (l : List AttemptOutcome) :
    (o :: l).countP isCommitErr = l.countP isCommitErr + 1 := by
  rw [List.countP_cons, ho]
  simp

/-- If every attempt fails, the loop consumes them all, returns the last
attempt's error, and sleeps 200 ms exactly once per commit-failed
attempt. -/
theorem logOpLoop_all_fail :
    ∀ (l : List AttemptOutcome), (∀ o ∈ l, isFail o = true) → l ≠ [] →
      ∀ (fe : Option String) (u s : Nat),
        (logOpLoop l fe u s).err = lastFailMsg l ∧
        (logOpLoop l fe u s).used = u + l.length ∧
        (logOpLoop l fe u s).sleepMs = s + 200 * l.countP isCommitErr := by
  intro l
  induction l with
  | nil => intro _ hne; exact absurd rfl hne
  | cons o rest ih =>
      intro hall _ fe u s
      have ho := hall o (List.mem_cons_self o rest)
      cases o with
      | redirectErr e =>
          cases rest with
          | nil =>
              refine ⟨rfl, rfl, ?_⟩
              have hred : (logOpLoop [AttemptOutcome.redirectErr e] fe u s).sleepMs = s := rfl
              rw [hred, countP_cons_commitFalse (AttemptOutcome.redirectErr e) rfl,
                List.countP_nil]
              omega
          | cons r rrest =>
              have h := ih (fun o ho => hall o (List.mem_cons.2 (Or.inr ho)))
                (by simp) (some e) (u + 1) s
              have hstep : logOpLoop (AttemptOutcome.redirectErr e :: (r :: rrest)) fe u s =
                  logOpLoop (r :: rrest) (some e) (u + 1) s := rfl
              refine ⟨?_, ?_, ?_⟩
              · rw [hstep, h.1]; rfl
              · rw [hstep, h.2.1]; simp only [List.length_cons]; omega
              · rw [hstep, h.2.2,
                  countP_cons_commitFalse (AttemptOutcome.redirectErr e) rfl]
      | commitErr e =>
          cases rest with
          | nil =>
              refine ⟨rfl, rfl, ?_⟩
              have hred : (logOpLoop [AttemptOutcome.commitErr e] fe u s).sleepMs =
                  s + 200 := rfl
              rw [hred, countP_cons_commitTrue (AttemptOutcome.commitErr e) rfl,
                List.countP_nil]
          | cons r rrest =>
              have h := ih (fun o ho => hall o (List.mem_cons.2 (Or.inr ho)))
                (by simp) (some e) (u + 1) (s + 200)
              have hstep : logOpLoop (AttemptOutcome.commitErr e :: (r :: rrest)) fe u s =
                  logOpLoop (r :: rrest) (some e) (u + 1) (s + 200) := rfl
              refine ⟨?_, ?_, ?_⟩
              · rw [hstep, h.1]; rfl
              · rw [hstep, h.2.1]; simp only [List.length_cons]; omega
              · rw [hstep, h.2.2,
                  countP_cons_commitTrue (AttemptOutcome.commitErr e) rfl]
                omega
      | redirected => simp [isFail] at ho
      | committed => simp [isFail] at ho

/-- If the attempts are some failures followed by a success, the loop
stops at the success, returns nil, and has slept only after the
commit-failed attempts before it. -/
theorem logOpLoop_success :
    ∀ (pre : List AttemptOutcome) (suc : AttemptOutcome) (post : List AttemptOutcome),
      (∀ o ∈ pre, isFail o = true) → isFail suc = false →
      ∀ (fe : Option String) (u s : Nat),
        (logOpLoop (pre ++ suc :: post) fe u s).err = none ∧
        (logOpLoop (pre ++ suc :: post) fe u s).used = u + pre.length + 1 ∧
        (logOpLoop (pre ++ suc :: post) fe u s).sleepMs =
          s + 200 * pre.countP isCommitErr := by
  intro pre
  induction pre with
  | nil =>
      intro suc post _ hsuc fe u s
      cases suc with
      | redirectErr e => simp [isFail] at hsuc
      | commitErr e => simp [isFail] at hsuc
      | redirected => simp [logOpLoop]
      | committed => simp [logOpLoop]
  | cons o pre' ih =>
      intro suc post hall hsuc fe u s
      have ho := hall o (List.mem_cons_self o pre')
      cases o with
      | redirectErr e =>
          have h := ih suc post
            (fun o ho2 => hall o (List.mem_cons.2 (Or.inr ho2))) hsuc
            (some e) (u + 1) s
          have hstep : logOpLoop ((AttemptOutcome.redirectErr e :: pre') ++ suc :: post) fe u s =
              logOpLoop (pre' ++ suc :: post) (some e) (u + 1) s := rfl
          refine ⟨by rw [hstep, h.1], ?_, ?_⟩
          · rw [hstep, h.2.1]; simp only [List.length_cons]; omega
          · rw [hstep, h.2.2,
              countP_cons_commitFalse (AttemptOutcome.redirectErr e) rfl]
      | commitErr e =>
          have h := ih suc post
            (fun o ho2 => hall o (List.mem_cons.2 (Or.inr ho2))) hsuc
            (some e) (u + 1) (s + 200)
          have hstep : logOpLoop ((AttemptOutcome.commitErr e :: pre') ++ suc :: post) fe u s =
              logOpLoop (pre' ++ suc :: post) (some e) (u + 1) (s + 200) := rfl
          refine ⟨by rw [hstep, h.1], ?_, ?_⟩
          · rw [hstep, h.2.1]; simp only [List.length_cons]; omega
          · rw [hstep, h.2.2,
              countP_cons_commitTrue (AttemptOutcome.commitErr e) rfl]
            omega
      | redirected => simp [isFail] at ho
      | committed => simp [isFail] at ho

/-- Counterexample to C7 as stated: an attempt that fails at the
redirect stage is retried with no backoff at all — the loop sleeps 0 ms
between the failed first attempt and the succeeding second one, not
200 ms. -/
theorem claim_C7_counterexample :
    isFail (AttemptOutcome.redirectErr "no leader") = true ∧
    (logOpCid [AttemptOutcome.redirectErr "no leader",
        AttemptOutcome.redirected]).err = none ∧
    (logOpCid [AttemptOutcome.redirectErr "no leader",
        AttemptOutcome.redirected]).used = 2 ∧
    (logOpCid [AttemptOutcome.redirectErr "no leader",
        AttemptOutcome.redirected]).sleepMs = 0 ∧
    (0 : Nat) ≠ 200 := by decide

/-- C7 (amended): `logOpCid` (shared by `LogPin`/`LogUnpin`) attempts
the commit at most `CommitRetries` times; it returns nil as soon as an
attempt succeeds (local commit or leader redirect); the 200 ms backoff
is slept only after attempts that failed at the local commit — a
redirect failure is retried immediately; after exhausting the retries
the last attempt's error is surfaced to the caller. -/
theorem claim_C7 (attempts pre post : List AttemptOutcome) (suc : AttemptOutcome) :
    (logOpCid attempts).used ≤ CommitRetries ∧
    (attempts.take CommitRetries = pre ++ suc :: post →
      (∀ o ∈ pre, isFail o = true) → isFail suc = false →
      (logOpCid attempts).err = none ∧
      (logOpCid attempts).used = pre.length + 1 ∧
      (logOpCid attempts).sleepMs = 200 * pre.countP isCommitErr) ∧
    ((∀ o ∈ attempts.take CommitRetries, isFail o = true) →
      attempts.take CommitRetries ≠ [] →
      (logOpCid attempts).err = lastFailMsg (attempts.take CommitRetries) ∧
      (logOpCid attempts).used = (attempts.take CommitRetries).length ∧
      (logOpCid attempts).sleepMs =
        200 * (attempts.take CommitRetries).countP isCommitErr) := by
  refine ⟨?_, ?_, ?_⟩
  · have h := logOpLoop_used_le (attempts.take CommitRetries) none 0 0
    have h2 : (attempts.take CommitRetries).length ≤ CommitRetries := by
      simp [List.length_take]
    calc (logOpCid attempts).used
        ≤ 0 + (attempts.take CommitRetries).length := h
      _ ≤ CommitRetries := by omega
  · intro htake hall hsuc
    have h := logOpLoop_success pre suc post hall hsuc none 0 0
    rw [show logOpCid attempts =
      logOpLoop (attempts.take CommitRetries) none 0 0 from rfl, htake]
    exact ⟨h.1, by rw [h.2.1]; omega, by rw [h.2.2]; omega⟩
  · intro hall hne
    have h := logOpLoop_all_fail (attempts.take CommitRetries) hall hne none 0 0
    have hcid : logOpCid attempts =
        logOpLoop (attempts.take CommitRetries) none 0 0 := rfl
    exact ⟨h.1, by rw [hcid, h.2.1]; omega, by rw [hcid, h.2.2]; omega⟩

/-- Witness for C7 (amended): a commit-failed attempt followed by a
successful one returns nil after one 200 ms backoff; two failed
attempts exhaust `CommitRetries` and surface the second error. -/
theorem claim_C7_witness :
    ((logOpCid [AttemptOutcome.commitErr "e1", AttemptOutcome.committed]).err = none ∧
     (logOpCid [AttemptOutcome.commitErr "e1", AttemptOutcome.committed]).used = 2 ∧
     (logOpCid [AttemptOutcome.commitErr "e1", AttemptOutcome.committed]).sleepMs = 200) ∧
    ((logOpCid [AttemptOutcome.redirectErr "ea", AttemptOutcome.commitErr "eb",
        AttemptOutcome.committed]).err = some "eb" ∧
     (logOpCid [AttemptOutcome.redirectErr "ea", AttemptOutcome.commitErr "eb",
        AttemptOutcome.committed]).used = CommitRetries) := by
  constructor
  · have h := (claim_C7 [AttemptOutcome.commitErr "e1", AttemptOutcome.committed]
      [AttemptOutcome.commitErr "e1"] [] AttemptOutcome.committed).2.1
      (by decide) (by decide) (by decide)
    exact ⟨h.1, by rw [h.2.1]; decide, by rw [h.2.2]; decide⟩
  · have h := (claim_C7 [AttemptOutcome.redirectErr "ea", AttemptOutcome.commitErr "eb",
      AttemptOutcome.committed] [] [] AttemptOutcome.committed).2.2
      (by decide) (by decide)
    exact ⟨by rw [h.1]; decide, by rw [h.2.1]; decide⟩

/-! ### Claim C9 — peerManager.addPeer -/

/-- C9: `addPeer` with an address whose peer ID is already in the peer
set is a no-op returning that ID with no error — peer set, peerstore,
config peers, consensus membership and saved config all unchanged; a
new peer ID is recorded, its address stored with a permanent TTL, the
consensus membership notified when the consensus component exists, and
the config persisted exactly when a config path is set. -/
theorem claim_C9 (st : PMState) (addr : Multiaddr) (pid : PeerID)
    (hsplit : addr.pid = some pid) :
    (pid ∈ st.peerSet → addPeer st addr = (st, Except.ok pid)) ∧
    (pid ∉ st.peerSet →
      (addPeer st addr).2 = Except.ok pid ∧
      (addPeer st addr).1.peerSet = st.peerSet ++ [pid] ∧
      (addPeer st addr).1.peerstore = st.peerstore ++ [(pid, addr.trans, true)] ∧
      (addPeer st addr).1.configPeers = configAddPeer st.configPeers addr ∧
      (addPeer st addr).1.consensusPeers = st.consensusPeers.map (· ++ [pid]) ∧
      (st.configPath.isSome →
        (addPeer st addr).1.savedConfig = some (configAddPeer st.configPeers addr)) ∧
      (st.configPath = none → (addPeer st addr).1.savedConfig = st.savedConfig)) := by
  have hs : multiaddrSplit addr = Except.ok (pid, addr.trans) := by
    simp [multiaddrSplit, hsplit]
  constructor
  · intro hmem
    have hc : st.peerSet.contains pid = true := by simpa using hmem
    simp only [addPeer, hs]
    rw [if_pos hc]
  · intro hmem
    have hc : ¬ (st.peerSet.contains pid = true) := by simp [hmem]
    cases hpath : st.configPath with
    | none =>
        simp only [addPeer, hs]
        rw [if_neg hc]
        simp [hpath, configAddPeer]
    | some p =>
        simp only [addPeer, hs]
        rw [if_neg hc]
        simp [hpath, configAddPeer]

/-- Witness for C9: adding the present peer "p1" is a no-op; adding the
new peer "p2" records it everywhere and persists the config. -/
theorem claim_C9_witness :
    (Multiaddr.pid ⟨some "p1", "t2"⟩ = some "p1" ∧ "p1" ∈ pmBase.peerSet ∧
      addPeer pmBase ⟨some "p1", "t2"⟩ = (pmBase, Except.ok "p1")) ∧
    (Multiaddr.pid ⟨some "p2", "t2"⟩ = some "p2" ∧ "p2" ∉ pmBase.peerSet ∧
      (addPeer pmBase ⟨some "p2", "t2"⟩).2 = Except.ok "p2" ∧
      (addPeer pmBase ⟨some "p2", "t2"⟩).1.peerSet = pmBase.peerSet ++ ["p2"] ∧
      (addPeer pmBase ⟨some "p2", "t2"⟩).1.savedConfig =
        some (configAddPeer pmBase.configPeers ⟨some "p2", "t2"⟩)) := by
  constructor
  · exact ⟨rfl, by decide,
      (claim_C9 pmBase ⟨some "p1", "t2"⟩ "p1" rfl).1 (by decide)⟩
  · have h := (claim_C9 pmBase ⟨some "p2", "t2"⟩ "p2" rfl).2 (by decide)
    exact ⟨rfl, by decide, h.1, h.2.1, h.2.2.2.2.2.1 (by decide)⟩

/-! ### Claim C3 — the Unpinned-never-materialised invariant -/

/-- Storing a non-Unpinned entry preserves the invariant. -/
theorem noUnpinned_aset {mpt : MapPinTracker} (h : noUnpinned mpt) {k : Cid}
    {pi : PinInfo} (hpi : pi.status ≠ TrackerStatus.unpinned) :
    noUnpinned { mpt with status := aset k pi mpt.status } := by
  intro x hx
  rcases mem_aset hx with h2 | h2
  · rw [h2]; exact hpi
  · exact h x h2

/-- `set` preserves the invariant for every status. -/
theorem noUnpinned_set (mpt : MapPinTracker) (h : noUnpinned mpt)
    (c : Cid) (s : TrackerStatus) (now : Nat) : noUnpinned (mpt.set c s now) := by
  by_cases hs : s = TrackerStatus.unpinned
  · intro x hx
    simp only [MapPinTracker.set, MapPinTracker.unsafeSet, if_pos hs] at hx
    exact h x (mem_aerase hx)
  · intro x hx
    simp only [MapPinTracker.set, MapPinTracker.unsafeSet, if_neg hs] at hx
    rcases mem_aset hx with h2 | h2
    · rw [h2]; exact hs
    · exact h x h2

/-- `setError` preserves the invariant. -/
theorem noUnpinned_setError (mpt : MapPinTracker) (h : noUnpinned mpt)
    (c : Cid) (e : String) (now : Nat) : noUnpinned (mpt.setError c e now) := by
  cases hst : (mpt.unsafeGet c now).status <;>
    simp only [MapPinTracker.setError, MapPinTracker.unsafeSetError, hst] <;>
    first
      | exact h
      | exact noUnpinned_aset h (by simp)

/-- `pin` preserves the invariant. -/
theorem noUnpinned_pin (mpt : MapPinTracker) (h : noUnpinned mpt)
    (c : CidArg) (now : Nat) (perr : Option String) :
    noUnpinned (mpt.pin c now perr).1 := by
  cases perr with
  | some e => exact noUnpinned_setError _ (noUnpinned_set mpt h _ _ _) _ _ _
  | none => exact noUnpinned_set _ (noUnpinned_set mpt h _ _ _) _ _ _

/-- `unpin` preserves the invariant. -/
theorem noUnpinned_unpin (mpt : MapPinTracker) (h : noUnpinned mpt)
    (c : CidArg) (now : Nat) (uerr : Option String) :
    noUnpinned (mpt.unpin c now uerr).1 := by
  cases uerr with
  | some e => exact noUnpinned_setError mpt h _ _ _
  | none => exact noUnpinned_set mpt h _ _ _

/-- `Track` preserves the invariant. -/
theorem noUnpinned_Track (mpt : MapPinTracker) (h : noUnpinned mpt)
    (c : CidArg) (now : Nat) (uerr : Option String) :
    noUnpinned (mpt.Track c now uerr).1 := by
  by_cases hr : mpt.isRemote c
  · by_cases hp : (mpt.get c.cid now).status = TrackerStatus.pinned
    · have : (mpt.Track c now uerr).1 =
          ((mpt.unpin c now uerr).1.set c.cid TrackerStatus.remote now) := by
        simp [MapPinTracker.Track, hr, hp]
      rw [this]
      exact noUnpinned_set _ (noUnpinned_unpin mpt h _ _ _) _ _ _
    · have : (mpt.Track c now uerr).1 = mpt.set c.cid TrackerStatus.remote now := by
        simp [MapPinTracker.Track, hr, hp]
      rw [this]
      exact noUnpinned_set mpt h _ _ _
  · by_cases hq : (mpt.set c.cid TrackerStatus.pinning now).pinCh.length < PinQueueSize
    · have : (mpt.Track c now uerr).1 =
          { mpt.set c.cid TrackerStatus.pinning now with
            pinCh := (mpt.set c.cid TrackerStatus.pinning now).pinCh ++ [c] } := by
        simp [MapPinTracker.Track, hr, hq]
      rw [this]
      exact noUnpinned_set mpt h _ _ _
    · have : (mpt.Track c now uerr).1 =
          (mpt.set c.cid TrackerStatus.pinning now).setError c.cid ErrPinQueueFull now := by
        simp [MapPinTracker.Track, hr, hq]
      rw [this]
      exact noUnpinned_setError _ (noUnpinned_set mpt h _ _ _) _ _ _

/-- `Untrack` preserves the invariant. -/
theorem noUnpinned_Untrack (mpt : MapPinTracker) (h : noUnpinned mpt)
    (c : Cid) (now : Nat) : noUnpinned (mpt.Untrack c now).1 := by
  by_cases hq : (mpt.set c TrackerStatus.unpinning now).unpinCh.length < PinQueueSize
  · have : (mpt.Untrack c now).1 =
        { mpt.set c TrackerStatus.unpinning now with
          unpinCh := (mpt.set c TrackerStatus.unpinning now).unpinCh ++ [CidArgCid c] } := by
      simp [MapPinTracker.Untrack, hq]
    rw [this]
    exact noUnpinned_set mpt h _ _ _
  · have : (mpt.Untrack c now).1 =
        (mpt.set c TrackerStatus.unpinning now).setError c ErrUnpinQueueFull now := by
      simp [MapPinTracker.Untrack, hq]
    rw [this]
    exact noUnpinned_setError _ (noUnpinned_set mpt h _ _ _) _ _ _

/-- `syncStatus` preserves the invariant. -/
theorem noUnpinned_syncStatus (mpt : MapPinTracker) (h : noUnpinned mpt)
    (c : Cid) (ips : IPFSPinStatus) (now : Nat) :
    noUnpinned (mpt.syncStatus c ips now).1 := by
  unfold MapPinTracker.syncStatus
  dsimp only
  cases hips : ips.IsPinned <;>
    cases hst : (mpt.get c now).status <;>
      simp only [hips, hst, Bool.false_eq_true, if_false, if_true] <;>
      first
        | exact h
        | exact noUnpinned_set mpt h _ _ _
        | exact noUnpinned_setError mpt h _ _ _
        | (split <;>
            first
              | exact h
              | exact noUnpinned_set mpt h _ _ _
              | exact noUnpinned_setError mpt h _ _ _)

/-- `Sync` preserves the invariant. -/
theorem noUnpinned_Sync (mpt : MapPinTracker) (h : noUnpinned mpt)
    (c : Cid) (now : Nat) (lsRes : Except String IPFSPinStatus) :
    noUnpinned (mpt.Sync c now lsRes).1 := by
  cases lsRes with
  | error e => exact noUnpinned_setError mpt h _ _ _
  | ok ips => exact noUnpinned_syncStatus mpt h _ _ _

/-- The bulk-failure loop preserves the invariant. -/
theorem noUnpinned_syncAllFail (e : String) (now : Nat) :
    ∀ (ks : List String) (mpt : MapPinTracker), noUnpinned mpt →
      noUnpinned (MapPinTracker.syncAllFail mpt e now ks).1
  | [], mpt, h => h
  | k :: rest, mpt, h =>
      noUnpinned_syncAllFail e now rest _ (noUnpinned_setError mpt h k e now)

/-- The reconciliation loop preserves the invariant. -/
theorem noUnpinned_syncAllLoop (ipsMap : List (String × IPFSPinStatus)) (now : Nat) :
    ∀ (l : List PinInfo) (mpt : MapPinTracker), noUnpinned mpt →
      noUnpinned (MapPinTracker.syncAllLoop mpt ipsMap now l).1 := by
  intro l
  induction l with
  | nil => intro mpt h; exact h
  | cons p rest ih =>
      intro mpt h
      have hrec := ih (mpt.syncStatus p.cid
        ((alookup p.cid ipsMap).getD IPFSPinStatus.unpinned) now).1
        (noUnpinned_syncStatus mpt h _ _ _)
      unfold MapPinTracker.syncAllLoop
      dsimp only
      split <;> exact hrec

/-- `SyncAll` preserves the invariant. -/
theorem noUnpinned_SyncAll (mpt : MapPinTracker) (h : noUnpinned mpt)
    (now : Nat) (lsAllRes : Except String (List (String × IPFSPinStatus))) :
    noUnpinned (mpt.SyncAll now lsAllRes).1 := by
  cases lsAllRes with
  | error e => exact noUnpinned_syncAllFail e now _ mpt h
  | ok ipsMap => exact noUnpinned_syncAllLoop ipsMap now _ mpt h

/-- `Recover` preserves the invariant. -/
theorem noUnpinned_Recover (mpt : MapPinTracker) (h : noUnpinned mpt)
    (c : Cid) (now : Nat) (derr : Option String) :
    noUnpinned (mpt.Recover c now derr).1 := by
  unfold MapPinTracker.Recover
  dsimp only
  split
  · exact h
  · split
    · exact noUnpinned_pin mpt h _ _ _
    · exact noUnpinned_unpin mpt h _ _ _
    · exact h

/-- C3: the tracker never materialises `Unpinned` — setting a CID to
`Unpinned` deletes its entry, `Status` of an untracked CID returns the
implicit default (`Unpinned`, the local peer ID, empty error), and the
no-stored-Unpinned invariant is preserved by `Track`, `Untrack`, `Sync`,
`SyncAll`, `Recover` and by the pin/unpin worker bodies. -/
theorem claim_C3 (mpt : MapPinTracker) (c : Cid) (now : Nat)
    (hnd : (mpt.status.map Prod.fst).Nodup) (h : noUnpinned mpt) :
    alookup c (mpt.set c TrackerStatus.unpinned now).status = none ∧
    (alookup c mpt.status = none →
      mpt.Status c now = ⟨c, mpt.peerID, TrackerStatus.unpinned, now, ""⟩) ∧
    (∀ (carg : CidArg) (uerr : Option String), noUnpinned (mpt.Track carg now uerr).1) ∧
    noUnpinned (mpt.Untrack c now).1 ∧
    (∀ lsRes, noUnpinned (mpt.Sync c now lsRes).1) ∧
    (∀ lsAllRes, noUnpinned (mpt.SyncAll now lsAllRes).1) ∧
    (∀ derr, noUnpinned (mpt.Recover c now derr).1) ∧
    (∀ (carg : CidArg) (perr : Option String), noUnpinned (mpt.pin carg now perr).1) ∧
    (∀ (carg : CidArg) (uerr : Option String), noUnpinned (mpt.unpin carg now uerr).1) := by
  refine ⟨?_, ?_, ?_, ?_, ?_, ?_, ?_, ?_, ?_⟩
  · simp only [MapPinTracker.set, MapPinTracker.unsafeSet, if_pos rfl]
    exact alookup_aerase_self c hnd
  · intro habs
    simp [MapPinTracker.Status, MapPinTracker.get, MapPinTracker.unsafeGet, habs]
  · exact fun carg uerr => noUnpinned_Track mpt h carg now uerr
  · exact noUnpinned_Untrack mpt h c now
  · exact fun lsRes => noUnpinned_Sync mpt h c now lsRes
  · exact fun lsAllRes => noUnpinned_SyncAll mpt h now lsAllRes
  · exact fun derr => noUnpinned_Recover mpt h c now derr
  · exact fun carg perr => noUnpinned_pin mpt h carg now perr
  · exact fun carg uerr => noUnpinned_unpin mpt h carg now uerr

/-- Witness for C3 at a concrete well-formed tracker. -/
theorem claim_C3_witness :
    ((mptErr.status.map Prod.fst).Nodup ∧ noUnpinned mptErr) ∧
    (alookup "qma" (mptErr.set "qma" TrackerStatus.unpinned 9).status = none ∧
     (alookup "qmz" mptErr.status = none →
       mptErr.Status "qmz" 9 = ⟨"qmz", mptErr.peerID, TrackerStatus.unpinned, 9, ""⟩) ∧
     noUnpinned (mptErr.Untrack "qma" 9).1) := by
  have h := claim_C3 mptErr "qma" 9 (by decide) (by decide)
  have h2 := claim_C3 mptErr "qmz" 9 (by decide) (by decide)
  exact ⟨⟨by decide, by decide⟩, h.1, h2.2.1, h.2.2.2.1⟩

/-! ### Claim C5 — SyncAll -/

/-- `unsafeSetError` on a stored entry rewrites its binding to the
marked entry. -/
theorem lookup_unsafeSetError_mem (mpt : MapPinTracker) {k : Cid} {pi : PinInfo}
    (hlk : alookup k mpt.status = some pi) (e : String) (now : Nat) :
    alookup k (mpt.unsafeSetError k e now).status =
      some (markError mpt.peerID k pi e now) := by
  have hget : mpt.unsafeGet k now = pi := by
    simp [MapPinTracker.unsafeGet, hlk]
  cases hst : pi.status <;>
    simp [MapPinTracker.unsafeSetError, hget, hst, markError,
      alookup_aset_self, hlk]

/-- The bulk-failure loop leaves the bindings of unprocessed keys
alone. -/
theorem syncAllFail_frame (e : String) (now : Nat) (k : Cid) :
    ∀ (ks : List String) (mpt : MapPinTracker), k ∉ ks →
      alookup k (MapPinTracker.syncAllFail mpt e now ks).1.status =
        alookup k mpt.status := by
  intro ks
  induction ks with
  | nil => intro mpt _; rfl
  | cons k0 rest ih =>
      intro mpt hk
      have hne : k ≠ k0 := fun hh => hk (hh ▸ List.mem_cons_self k0 rest)
      have h1 : alookup k (mpt.unsafeSetError k0 e now).status = alookup k mpt.status := by
        have := MapPinTracker.lookup_setError_ne mpt (c := k0) (q := k) hne e now
        rwa [show mpt.setError k0 e now = mpt.unsafeSetError k0 e now from rfl] at this
      rw [show (MapPinTracker.syncAllFail mpt e now (k0 :: rest)).1 =
        (MapPinTracker.syncAllFail (mpt.unsafeSetError k0 e now) e now rest).1 from rfl]
      rw [ih _ (fun hmem => hk (List.mem_cons.2 (Or.inr hmem))), h1]

/-- The bulk-failure loop does not change the local peer ID. -/
theorem syncAllFail_peerID (e : String) (now : Nat) :
    ∀ (ks : List String) (mpt : MapPinTracker),
      (MapPinTracker.syncAllFail mpt e now ks).1.peerID = mpt.peerID := by
  intro ks
  induction ks with
  | nil => intro mpt; rfl
  | cons k0 rest ih =>
      intro mpt
      rw [show (MapPinTracker.syncAllFail mpt e now (k0 :: rest)).1 =
        (MapPinTracker.syncAllFail (mpt.unsafeSetError k0 e now) e now rest).1 from rfl]
      rw [ih]
      exact (MapPinTracker.setError_fields mpt k0 e now).2.2

/-- `unsafeGet` depends only on the binding and the peer ID. -/
theorem unsafeGet_congr {a b : MapPinTracker} (k : Cid)
    (hlk : alookup k a.status = alookup k b.status) (hp : a.peerID = b.peerID)
    (now : Nat) : a.unsafeGet k now = b.unsafeGet k now := by
  simp only [MapPinTracker.unsafeGet, hlk, hp]

/-- Every processed key's binding ends up marked with the error. -/
theorem syncAllFail_lookup_mem (e : String) (now : Nat) (k : Cid) :
    ∀ (ks : List String) (mpt : MapPinTracker), ks.Nodup → k ∈ ks →
      ∀ pi, alookup k mpt.status = some pi →
        alookup k (MapPinTracker.syncAllFail mpt e now ks).1.status =
          some (markError mpt.peerID k pi e now) := by
  intro ks
  induction ks with
  | nil => intro mpt _ hk; exact absurd hk (List.not_mem_nil k)
  | cons k0 rest ih =>
      intro mpt hnd hk pi hlk
      have hnd' := List.nodup_cons.1 hnd
      rw [show (MapPinTracker.syncAllFail mpt e now (k0 :: rest)).1 =
        (MapPinTracker.syncAllFail (mpt.unsafeSetError k0 e now) e now rest).1 from rfl]
      by_cases hk0 : k = k0
      · subst hk0
        have hmark := lookup_unsafeSetError_mem mpt hlk e now
        rw [syncAllFail_frame e now k rest _ hnd'.1, hmark]
      · have hframe : alookup k (mpt.unsafeSetError k0 e now).status =
            alookup k mpt.status := by
          have := MapPinTracker.lookup_setError_ne mpt (c := k0) (q := k) hk0 e now
          rwa [show mpt.setError k0 e now = mpt.unsafeSetError k0 e now from rfl] at this
        have hkrest : k ∈ rest := by
          rcases List.mem_cons.1 hk with h1 | h1
          · exact absurd h1 hk0
          · exact h1
        have hres := ih (mpt.unsafeSetError k0 e now) hnd'.2 hkrest pi (by rw [hframe, hlk])
        have hpid : (mpt.unsafeSetError k0 e now).peerID = mpt.peerID :=
          (MapPinTracker.setError_fields mpt k0 e now).2.2
        rw [hres, hpid]

/-- The bulk-failure loop returns, in key order, the final entry of
every processed key. -/
theorem syncAllFail_collect (e : String) (now : Nat) :
    ∀ (ks : List String) (mpt : MapPinTracker), ks.Nodup →
      (MapPinTracker.syncAllFail mpt e now ks).2 =
        ks.map (fun k => (MapPinTracker.syncAllFail mpt e now ks).1.unsafeGet k now) := by
  intro ks
  induction ks with
  | nil => intro mpt _; rfl
  | cons k0 rest ih =>
      intro mpt hnd
      have hnd' := List.nodup_cons.1 hnd
      have hstep1 : (MapPinTracker.syncAllFail mpt e now (k0 :: rest)).1 =
          (MapPinTracker.syncAllFail (mpt.unsafeSetError k0 e now) e now rest).1 := rfl
      have hstep2 : (MapPinTracker.syncAllFail mpt e now (k0 :: rest)).2 =
          (mpt.unsafeSetError k0 e now).unsafeGet k0 now ::
            (MapPinTracker.syncAllFail (mpt.unsafeSetError k0 e now) e now rest).2 := rfl
      rw [hstep2, List.map_cons]
      congr 1
      · refine unsafeGet_congr k0 ?_ ?_ now
        · rw [hstep1, syncAllFail_frame e now k0 rest _ hnd'.1]
        · rw [hstep1, syncAllFail_peerID]
      · rw [ih _ hnd'.2]
        apply List.map_congr_left
        intro k hk
        rw [hstep1]

/-- The reconciliation loop returns exactly the filtered trace and the
trace's originals are the snapshot. -/
theorem syncAllLoop_trace (ipsMap : List (String × IPFSPinStatus)) (now : Nat) :
    ∀ (l : List PinInfo) (mpt : MapPinTracker),
      (MapPinTracker.syncAllLoop mpt ipsMap now l).2 =
        ((syncAllTrace mpt ipsMap now l).filter syncChanged).map Prod.snd ∧
      (syncAllTrace mpt ipsMap now l).map Prod.fst = l := by
  intro l
  induction l with
  | nil => intro mpt; exact ⟨rfl, rfl⟩
  | cons p rest ih =>
      intro mpt
      have ihr := ih (mpt.syncStatus p.cid
        ((alookup p.cid ipsMap).getD IPFSPinStatus.unpinned) now).1
      constructor
      · show (MapPinTracker.syncAllLoop mpt ipsMap now (p :: rest)).2 = _
        by_cases hcond : p.status ≠ (mpt.syncStatus p.cid
            ((alookup p.cid ipsMap).getD IPFSPinStatus.unpinned) now).2.status ∨
            (mpt.syncStatus p.cid
              ((alookup p.cid ipsMap).getD IPFSPinStatus.unpinned) now).2.status =
              TrackerStatus.unpinError ∨
            (mpt.syncStatus p.cid
              ((alookup p.cid ipsMap).getD IPFSPinStatus.unpinned) now).2.status =
              TrackerStatus.pinError
        · rw [show (MapPinTracker.syncAllLoop mpt ipsMap now (p :: rest)).2 =
            (if p.status ≠ (mpt.syncStatus p.cid
                ((alookup p.cid ipsMap).getD IPFSPinStatus.unpinned) now).2.status ∨
              (mpt.syncStatus p.cid
                ((alookup p.cid ipsMap).getD IPFSPinStatus.unpinned) now).2.status =
                TrackerStatus.unpinError ∨
              (mpt.syncStatus p.cid
                ((alookup p.cid ipsMap).getD IPFSPinStatus.unpinned) now).2.status =
                TrackerStatus.pinError then
              ((mpt.syncStatus p.cid
                ((alookup p.cid ipsMap).getD IPFSPinStatus.unpinned) now).2 ::
                (MapPinTracker.syncAllLoop (mpt.syncStatus p.cid
                  ((alookup p.cid ipsMap).getD IPFSPinStatus.unpinned) now).1
                  ipsMap now rest).2)
            else (MapPinTracker.syncAllLoop (mpt.syncStatus p.cid
              ((alookup p.cid ipsMap).getD IPFSPinStatus.unpinned) now).1
              ipsMap now rest).2) from by
            simp only [MapPinTracker.syncAllLoop]
            split <;> rfl]
          rw [if_pos hcond]
          rw [show syncAllTrace mpt ipsMap now (p :: rest) =
            (p, (mpt.syncStatus p.cid
              ((alookup p.cid ipsMap).getD IPFSPinStatus.unpinned) now).2) ::
              syncAllTrace (mpt.syncStatus p.cid
                ((alookup p.cid ipsMap).getD IPFSPinStatus.unpinned) now).1
                ipsMap now rest from rfl]
          rw [List.filter_cons]
          have hdec : syncChanged (p, (mpt.syncStatus p.cid
              ((alookup p.cid ipsMap).getD IPFSPinStatus.unpinned) now).2) = true := by
            simp only [syncChanged]
            exact decide_eq_true hcond
          rw [if_pos hdec, List.map_cons, ihr.1]
        · rw [show (MapPinTracker.syncAllLoop mpt ipsMap now (p :: rest)).2 =
            (if p.status ≠ (mpt.syncStatus p.cid
                ((alookup p.cid ipsMap).getD IPFSPinStatus.unpinned) now).2.status ∨
              (mpt.syncStatus p.cid
                ((alookup p.cid ipsMap).getD IPFSPinStatus.unpinned) now).2.status =
                TrackerStatus.unpinError ∨
              (mpt.syncStatus p.cid
                ((alookup p.cid ipsMap).getD IPFSPinStatus.unpinned) now).2.status =
                TrackerStatus.pinError then
              ((mpt.syncStatus p.cid
                ((alookup p.cid ipsMap).getD IPFSPinStatus.unpinned) now).2 ::
                (MapPinTracker.syncAllLoop (mpt.syncStatus p.cid
                  ((alookup p.cid ipsMap).getD IPFSPinStatus.unpinned) now).1
                  ipsMap now rest).2)
            else (MapPinTracker.syncAllLoop (mpt.syncStatus p.cid
              ((alookup p.cid ipsMap).getD IPFSPinStatus.unpinned) now).1
              ipsMap now rest).2) from by
            simp only [MapPinTracker.syncAllLoop]
            split <;> rfl]
          rw [if_neg hcond]
          rw [show syncAllTrace mpt ipsMap now (p :: rest) =
            (p, (mpt.syncStatus p.cid
              ((alookup p.cid ipsMap).getD IPFSPinStatus.unpinned) now).2) ::
              syncAllTrace (mpt.syncStatus p.cid
                ((alookup p.cid ipsMap).getD IPFSPinStatus.unpinned) now).1
                ipsMap now rest from rfl]
          rw [List.filter_cons]
          have hdec : syncChanged (p, (mpt.syncStatus p.cid
              ((alookup p.cid ipsMap).getD IPFSPinStatus.unpinned) now).2) = false := by
            simp only [syncChanged]
            exact decide_eq_false hcond
          rw [if_neg (by rw [hdec]; exact Bool.false_ne_true), ihr.1]
      · rw [show syncAllTrace mpt ipsMap now (p :: rest) =
          (p, (mpt.syncStatus p.cid
            ((alookup p.cid ipsMap).getD IPFSPinStatus.unpinned) now).2) ::
            syncAllTrace (mpt.syncStatus p.cid
              ((alookup p.cid ipsMap).getD IPFSPinStatus.unpinned) now).1
              ipsMap now rest from rfl]
        rw [List.map_cons, ihr.2]

/-- Counterexample to C5 as stated: on the bulk-query failure path a
tracked `Remote` entry is not marked as an error of either polarity —
its status stays `Remote`. -/
theorem claim_C5_counterexample :
    (alookup "qmr" mptRemote.status).isSome = true ∧
    (mptRemote.SyncAll 5 (Except.error "boom")).2.2 = some "boom" ∧
    alookup "qmr" (mptRemote.SyncAll 5 (Except.error "boom")).1.status =
      some ⟨"qmr", "peerA", TrackerStatus.remote, 1, ""⟩ ∧
    TrackerStatus.remote ≠ TrackerStatus.pinError ∧
    TrackerStatus.remote ≠ TrackerStatus.unpinError := by decide

/-- C5 (amended): if the bulk daemon query fails, every tracked
non-Remote entry is marked as an error of the appropriate polarity
(pin-side statuses become `PinError`, unpin-side `UnpinError`; `Remote`
entries are left unchanged), the returned list holds the post-marking
entry of every tracked key, and the error is returned; if the query
succeeds, the returned list contains exactly the reconciled entries
whose status changed or whose resulting status is `PinError` or
`UnpinError`. -/
theorem claim_C5 (mpt : MapPinTracker) (now : Nat) (e : String)
    (ipsMap : List (String × IPFSPinStatus))
    (hnd : (mpt.status.map Prod.fst).Nodup) :
    ((∀ k pi, alookup k mpt.status = some pi →
        alookup k (mpt.SyncAll now (Except.error e)).1.status =
          some (markError mpt.peerID k pi e now)) ∧
      (mpt.SyncAll now (Except.error e)).2.1 =
        (mpt.status.map Prod.fst).map
          (fun k => (mpt.SyncAll now (Except.error e)).1.unsafeGet k now) ∧
      (mpt.SyncAll now (Except.error e)).2.2 = some e) ∧
    ((mpt.SyncAll now (Except.ok ipsMap)).2.1 =
        ((syncAllTrace mpt ipsMap now mpt.StatusAll).filter syncChanged).map Prod.snd ∧
      (syncAllTrace mpt ipsMap now mpt.StatusAll).map Prod.fst = mpt.StatusAll ∧
      (mpt.SyncAll now (Except.ok ipsMap)).2.2 = none) := by
  refine ⟨⟨?_, ?_, rfl⟩, ?_, ?_, rfl⟩
  · intro k pi hlk
    exact syncAllFail_lookup_mem e now k (mpt.status.map Prod.fst) mpt hnd
      (alookup_some_mem_keys hlk) pi hlk
  · exact syncAllFail_collect e now (mpt.status.map Prod.fst) mpt hnd
  · exact (syncAllLoop_trace ipsMap now mpt.StatusAll mpt).1
  · exact (syncAllLoop_trace ipsMap now mpt.StatusAll mpt).2

/-- Witness for C5 (amended) at a concrete tracker with a pin-side, an
unpin-side and a healthy entry. -/
theorem claim_C5_witness :
    (mptErr.status.map Prod.fst).Nodup ∧
    alookup "qma" (mptErr.SyncAll 9 (Except.error "boom")).1.status =
      some ⟨"qma", "peerA", TrackerStatus.pinError, 9, "boom"⟩ ∧
    alookup "qmb" (mptErr.SyncAll 9 (Except.error "boom")).1.status =
      some ⟨"qmb", "peerA", TrackerStatus.unpinError, 9, "boom"⟩ ∧
    (mptErr.SyncAll 9 (Except.error "boom")).2.2 = some "boom" ∧
    (mptErr.SyncAll 9 (Except.ok [("qmc", IPFSPinStatus.pinned)])).2.1 =
      ((syncAllTrace mptErr [("qmc", IPFSPinStatus.pinned)] 9 mptErr.StatusAll).filter
        syncChanged).map Prod.snd := by
  have h := claim_C5 mptErr 9 "boom" [("qmc", IPFSPinStatus.pinned)] (by decide)
  refine ⟨by decide, ?_, ?_, h.1.2.2, h.2.1⟩
  · have := h.1.1 "qma" ⟨"qma", "peerA", TrackerStatus.pinError, 1, "boom"⟩ (by decide)
    rwa [show markError mptErr.peerID "qma"
      ⟨"qma", "peerA", TrackerStatus.pinError, 1, "boom"⟩ "boom" 9 =
      ⟨"qma", "peerA", TrackerStatus.pinError, 9, "boom"⟩ from rfl] at this
  · have := h.1.1 "qmb" ⟨"qmb", "peerA", TrackerStatus.unpinError, 1, "boom"⟩ (by decide)
    rwa [show markError mptErr.peerID "qmb"
      ⟨"qmb", "peerA", TrackerStatus.unpinError, 1, "boom"⟩ "boom" 9 =
      ⟨"qmb", "peerA", TrackerStatus.unpinError, 9, "boom"⟩ from rfl] at this

end IpfsCluster
